import Mathlib

/-!
# GopherMail

A verification development for the GopherMail dispatcher: message validation,
the retry policy (`shouldRetry`, `SendWithRetry`), envelope set-up
(`defineRecipients`), the worker-pool lifecycle (`Start`, `Stop`, `AddEmail`,
`ProcessEmails`), the command lines of the hand-written SMTP session (`from`, `to`)
and its line buffer (`Buffer_t`).

Conventions of the embedding

* A Go `string` is the list of its code points (`GoString`); strings are valid UTF-8.
* A Go `error` is a `GoError`; `nil` is `none` of `Option GoError`.
* Library calls that touch the network (`net/smtp`, `net/textproto`) are fields
  of a `Server`/`TextConn` record acting on an abstract state `σ`; every call is
  appended to a log, so that "which calls were made" is a property of the result.
* `time.Duration` is an integer number of nanoseconds.
-/

namespace GopherMail

/-! ## Strings and errors -/

/-- A Go string, as the sequence of its code points. -/
abbrev GoString := List Char

instance : Coe String GoString := ⟨String.toList⟩

/-- The library function `strings.Contains(s, substr)`: `substr` is a contiguous run of `s`. -/
def Contains (s substr : GoString) : Bool := decide (substr <:+: s)

/-- The library function `strings.Join(elems, sep)`. -/
def Join (elems : List GoString) (sep : GoString) : GoString := sep.intercalate elems

/-- The library function `unicode.ToLower` on one rune: the ASCII range is handled inline
(`'A'..'Z'` move by `'a' - 'A'`), every other rune goes through the Unicode case table `tbl`. -/
def toLowerRune (tbl : Char → Char) (r : Char) : Char :=
  if r.toNat ≤ 127 then
    if 65 ≤ r.toNat ∧ r.toNat ≤ 90 then Char.ofNat (r.toNat + 32) else r
  else tbl r

/-- The library function `strings.ToLower`: `unicode.ToLower` mapped over the runes. -/
def ToLower (tbl : Char → Char) (s : GoString) : GoString := s.map (toLowerRune tbl)

/-- A case table that leaves every rune outside ASCII alone (used for concrete runs on
ASCII messages, where the table is never consulted). -/
def asciiTable : Char → Char := fun r => r

/-- A Go error value: its message, and the error it wraps when built with `%w`. -/
inductive GoError where
  | errorf (msg : GoString)
  | wrapf (msg : GoString) (cause : GoError)
  deriving DecidableEq, Repr

/-- The method `err.Error()`. -/
def GoError.Error : GoError → GoString
  | .errorf msg => msg
  | .wrapf msg _ => msg

/-- The call `fmt.Errorf(pre + "%w", err)` for a non-nil `err`. -/
def wrapErr (pre : GoString) (err : GoError) : GoError := .wrapf (pre ++ err.Error) err

/-! ## Messages and validation (gophermail.go) -/

structure IndividualEmail where
  ID : Int
  From : GoString
  To : GoString
  Cc : List GoString
  Bcc : List GoString
  Subject : GoString
  Body : GoString
  deriving DecidableEq, Repr

/-- The function `validateEmail`; the argument is a pointer, `none` being `nil`. -/
def validateEmail (email : Option IndividualEmail) : Option GoError :=
  match email with
  | none => some (.errorf "email cannot be nil")
  | some email =>
    if email.From = [] then some (.errorf "sender (From) is required")
    else if email.To = [] then some (.errorf "recipient (To) is required")
    else if email.Subject = [] then some (.errorf "subject is required")
    else if email.Body = [] then some (.errorf "body is required")
    else if !Contains email.From "@" then
      some (.errorf ("invalid sender format: " ++ email.From))
    else if !Contains email.To "@" then
      some (.errorf ("invalid recipient format: " ++ email.To))
    else none

/-- The function `buildMessage`; `date` is `time.Now().Format(time.RFC1123Z)`. -/
def buildMessage (email : IndividualEmail) (date : GoString) : GoString :=
  let validCcs := email.Cc.filter (fun cc => cc ≠ [])
  ("From: " ++ email.From ++ "\r\n")
    ++ ("To: " ++ email.To ++ "\r\n")
    ++ (if 0 < email.Cc.length ∧ 0 < validCcs.length then
          "Cc: " ++ Join validCcs ", " ++ "\r\n" else [])
    ++ ("Subject: " ++ email.Subject ++ "\r\n")
    ++ "Content-Type: text/plain; charset=utf-8\r\n"
    ++ ("Date: " ++ date ++ "\r\n")
    ++ "\r\n"
    ++ email.Body

/-! ## The SMTP collaborator and one send attempt -/

/-- One call into the connection layer. -/
inductive NetCall where
  | createSMTPClient
  | mail (sender : GoString)
  | rcpt (recipient : GoString)
  | data
  | write (message : GoString)
  | close
  | quit
  deriving DecidableEq, Repr

/-- The behaviour of the connection layer over an abstract state `σ`:
`Config.CreateSMTPClient` (TLS dial, greeting, AUTH) and the `net/smtp` client
methods used by `sendEmail`, each returning its error (`none` is `nil`) and the
next state; `Now` is the formatted clock reading used for the `Date:` header. -/
structure Server (σ : Type) where
  CreateSMTPClient : σ → Option GoError × σ
  Mail : GoString → σ → Option GoError × σ
  Rcpt : GoString → σ → Option GoError × σ
  Data : σ → Option GoError × σ
  Write : GoString → σ → Option GoError × σ
  Close : σ → Option GoError × σ
  Quit : σ → σ
  Now : σ → GoString

/-- The connection layer's state together with the log of calls made so far. -/
structure Net (σ : Type) where
  state : σ
  calls : List NetCall

/-- Perform one call: run it on the state and append it to the log. -/
def netCall {σ : Type} (c : NetCall) (f : σ → Option GoError × σ) (n : Net σ) :
    Option GoError × Net σ :=
  ((f n.state).1, ⟨(f n.state).2, n.calls ++ [c]⟩)

/-- The final loop of `defineRecipients`: `client.Rcpt` on each recipient in turn,
returning at the first error. -/
def rcptLoop {σ : Type} (srv : Server σ) : List GoString → Net σ → Option GoError × Net σ
  | [], n => (none, n)
  | recipient :: rest, n =>
    match netCall (.rcpt recipient) (srv.Rcpt recipient) n with
    | (some err, n1) => (some (wrapErr ("error setting recipient " ++ recipient ++ ": ") err), n1)
    | (none, n1) => rcptLoop srv rest n1

/-- The list `allRecipients` that `defineRecipients` builds before issuing any RCPT. -/
def allRecipients (email : IndividualEmail) : List GoString :=
  [email.To]
    ++ email.Cc.filter (fun cc => cc ≠ [] && Contains cc "@")
    ++ email.Bcc.filter (fun bcc => bcc ≠ [] && Contains bcc "@")

/-- The function `defineRecipients`. -/
def defineRecipients {σ : Type} (srv : Server σ) (email : IndividualEmail) (n : Net σ) :
    Option GoError × Net σ :=
  rcptLoop srv (allRecipients email) n

/-- The state of the connection layer after `client.Rcpt` was called on each recipient
of the list in turn, starting from `s`. -/
def afterRcpts {σ : Type} (srv : Server σ) : List GoString → σ → σ
  | [], s => s
  | recipient :: rest, s => afterRcpts srv rest (srv.Rcpt recipient s).2

/-- The server accepts the recipients of the list one after the other, starting from `s`:
each `client.Rcpt` returns nil in the state the previous ones left. -/
def rcptsAccepted {σ : Type} (srv : Server σ) : List GoString → σ → Bool
  | [], _ => true
  | recipient :: rest, s =>
    (srv.Rcpt recipient s).1.isNone && rcptsAccepted srv rest (srv.Rcpt recipient s).2

/-- The deferred `client.Quit()` of `sendEmail`: runs on every return after the client
was created; its error is discarded. -/
def deferQuit {σ : Type} (srv : Server σ) (r : Option GoError × Net σ) : Option GoError × Net σ :=
  (r.1, ⟨srv.Quit r.2.state, r.2.calls ++ [.quit]⟩)

/-- The method `EmailWorkerPool.sendEmail`. -/
def sendEmail {σ : Type} (srv : Server σ) (email : Option IndividualEmail) (n : Net σ) :
    Option GoError × Net σ :=
  match validateEmail email, email with
  | some err, _ => (some (wrapErr "validation failed: " err), n)
  | none, none => (none, n) -- not reached: validateEmail rejects nil
  | none, some email =>
    match netCall .createSMTPClient srv.CreateSMTPClient n with
    | (some err, n1) => (some (wrapErr "error creating SMTP client: " err), n1)
    | (none, n1) =>
      deferQuit srv <|
        match netCall (.mail email.From) (srv.Mail email.From) n1 with
        | (some err, n2) => (some (wrapErr "error setting sender: " err), n2)
        | (none, n2) =>
          match defineRecipients srv email n2 with
          | (some err, n3) => (some (wrapErr "error setting recipients: " err), n3)
          | (none, n3) =>
            match netCall .data srv.Data n3 with
            | (some err, n4) => (some (wrapErr "error starting data transmission: " err), n4)
            | (none, n4) =>
              let message := buildMessage email (srv.Now n4.state)
              match netCall (.write message) (srv.Write message) n4 with
              | (some err, n5) =>
                (some (wrapErr "error writing message: " err), (netCall .close srv.Close n5).2)
              | (none, n5) =>
                match netCall .close srv.Close n5 with
                | (some err, n6) => (some (wrapErr "error finalizing email sending: " err), n6)
                | (none, n6) => (none, n6)

/-! ## The retry policy -/

/-- A `time.Duration`: a count of nanoseconds. -/
abbrev Duration := Int

/-- The constant `time.Second`. -/
def Second : Duration := 1000000000

/-- The type `EmailRetrySystem`. The field `multiplier` is a `float64` in the source; both
places that build the record (`NewRetrySystem`, `SetRetryConfig`) store `2.0`, and the
embedding carries the integer value the float holds. -/
structure EmailRetrySystem where
  maxRetries : Int
  initialBackoff : Duration
  maxBackoff : Duration
  multiplier : Int
  deriving DecidableEq, Repr

/-- The function `NewRetrySystem`. -/
def NewRetrySystem (maxRetries : Int) : EmailRetrySystem :=
  { maxRetries := maxRetries
    initialBackoff := Second
    maxBackoff := 60 * Second
    multiplier := 2 }

/-- The nearest `float64` to an integer (round to nearest, ties to even): integers below
`2^53` in magnitude are exact, larger ones keep their 53 leading bits. -/
def roundFloat64 (n : Int) : Int :=
  let a := n.natAbs
  if a < 2 ^ 53 then n
  else
    let e := Nat.log2 a - 52
    let q := a / 2 ^ e
    let r := a % 2 ^ e
    let half := 2 ^ (e - 1)
    let q1 := if half < r ∨ (r = half ∧ q % 2 = 1) then q + 1 else q
    n.sign * ((q1 * 2 ^ e : Nat) : Int)

/-- The conversion `time.Duration(f)` of an integer-valued `float64` to `int64`. A value
outside the `int64` range has no portable result; the amd64 one (`-2^63`) is used. -/
def durationOfFloat (f : Int) : Duration :=
  if -(2 : Int) ^ 63 ≤ f ∧ f < (2 : Int) ^ 63 then f else -(2 : Int) ^ 63

/-- The expression `time.Duration(float64(backoff) * ers.multiplier)`. -/
def scaleBackoff (ers : EmailRetrySystem) (backoff : Duration) : Duration :=
  durationOfFloat (roundFloat64 (roundFloat64 backoff * ers.multiplier))

/-- The update of `backoff` after a sleep in `SendWithRetry`: scale, then cap at `maxBackoff`. -/
def nextBackoff (ers : EmailRetrySystem) (backoff : Duration) : Duration :=
  if scaleBackoff ers backoff > ers.maxBackoff then ers.maxBackoff else scaleBackoff ers backoff

/-- The list `retryableErrors` of `shouldRetry`. -/
def retryableErrors : List GoString :=
  [ "connection refused",
    "timeout",
    "temporary failure",
    "network unreachable",
    "TLS handshake failed",
    "connection reset",
    "server busy",
    "dial tcp",
    "no such host" ]

/-- The list `nonRetryableErrors` of `shouldRetry`. -/
def nonRetryableErrors : List GoString :=
  [ "invalid sender format",
    "invalid recipient format",
    "validation failed",
    "authentication failed",
    "invalid credentials",
    "535",
    "550" ]

/-- The method `EmailRetrySystem.shouldRetry`; `tbl` is the Unicode case table behind
`strings.ToLower`. -/
def shouldRetry (tbl : Char → Char) (err : GoError) : Bool :=
  let errStr := err.Error
  if retryableErrors.any (fun retryable => Contains (ToLower tbl errStr) retryable) then true
  else if nonRetryableErrors.any (fun nonRetryable => Contains (ToLower tbl errStr) nonRetryable)
  then false
  else true

/-- The verb `%d` on an `int`. -/
def formatInt (i : Int) : GoString :=
  if i < 0 then '-' :: Nat.toDigits 10 i.natAbs else Nat.toDigits 10 i.natAbs

/-- The closing `fmt.Errorf("failed after %d attempts: %w", ers.maxRetries, lastErr)` of
`SendWithRetry`; a nil `lastErr` is printed by `%w` as `%!w(<nil>)` and nothing is wrapped. -/
def failedAfter (ers : EmailRetrySystem) (lastErr : Option GoError) : GoError :=
  match lastErr with
  | some err => wrapErr ("failed after " ++ formatInt ers.maxRetries ++ " attempts: ") err
  | none => .errorf ("failed after " ++ formatInt ers.maxRetries ++ " attempts: %!w(<nil>)")

/-- What one run of `SendWithRetry` did: the two values it returns, the number of times
the send was invoked, the arguments of `time.Sleep` in order, and the state it left. -/
structure RetryRun (σ : Type) where
  err : Option GoError
  attempts : Int
  sends : Nat
  sleeps : List Duration
  final : σ

/-- The `for attempt := 1; attempt <= ers.maxRetries; attempt++` loop of `SendWithRetry`,
one iteration per unit of `fuel`; `send` is `ewp.sendEmail(email)`. The loop variables are
`attempt`, `backoff` and `lastErr`; `sends` and `sleeps` record the calls made so far.
(`attempt` is an `int`; it stays at most `maxRetries + 1`.) -/
def retryLoop {σ : Type} (tbl : Char → Char) (ers : EmailRetrySystem)
    (send : σ → Option GoError × σ) :
    Nat → Int → Duration → Option GoError → Nat → List Duration → σ → RetryRun σ
  | 0, _, _, lastErr, sends, sleeps, s =>
    ⟨some (failedAfter ers lastErr), ers.maxRetries, sends, sleeps, s⟩
  | fuel + 1, attempt, backoff, lastErr, sends, sleeps, s =>
    if attempt ≤ ers.maxRetries then
      match send s with
      | (none, s1) => ⟨none, attempt, sends + 1, sleeps, s1⟩
      | (some err, s1) =>
        if attempt < ers.maxRetries then
          if shouldRetry tbl err then
            retryLoop tbl ers send fuel (attempt + 1) (nextBackoff ers backoff) (some err)
              (sends + 1) (sleeps ++ [backoff]) s1
          else
            -- break
            ⟨some (failedAfter ers (some err)), ers.maxRetries, sends + 1, sleeps, s1⟩
        else
          retryLoop tbl ers send fuel (attempt + 1) backoff (some err) (sends + 1) sleeps s1
    else
      ⟨some (failedAfter ers lastErr), ers.maxRetries, sends, sleeps, s⟩

/-- The method `EmailRetrySystem.SendWithRetry`, with `send` standing for
`ewp.sendEmail(email)`. The loop body runs at most `maxRetries` times, so
`maxRetries + 1` units of fuel always reach the loop's own exit. -/
def SendWithRetry {σ : Type} (tbl : Char → Char) (ers : EmailRetrySystem)
    (send : σ → Option GoError × σ) (s : σ) : RetryRun σ :=
  retryLoop tbl ers send (ers.maxRetries.toNat + 1) 1 ers.initialBackoff none 0 [] s

/-- The delay slept after the `n`-th consecutive retryable failure (`n ≥ 1`), as the
specification words it: seeded at `initialBackoff`, then scaled and capped. -/
def backoffSpec (ers : EmailRetrySystem) : Nat → Duration
  | 0 => ers.initialBackoff
  | 1 => ers.initialBackoff
  | n + 2 => min (scaleBackoff ers (backoffSpec ers (n + 1))) ers.maxBackoff

/-- The state of the connection layer after `i` invocations of `send`. -/
def afterSends {σ : Type} (send : σ → Option GoError × σ) (i : Nat) (s : σ) : σ :=
  (fun t => (send t).2)^[i] s

/-- The type `EmailResult`, without its two clock readings (`Time`, `SentAt`). -/
structure EmailResult where
  Email : IndividualEmail
  Success : Bool
  Error : Option GoError
  Attempts : Int
  deriving DecidableEq, Repr

/-- The body of the `for job := range jobs` loop of `worker`: the result record it sends
on `results`, and the state of the connection layer afterwards. `retry` is `Config.Retry`,
`retrySystem` the pointer `ewp.RetrySystem`. -/
def workerJob {σ : Type} (tbl : Char → Char) (srv : Server σ) (retry : Bool)
    (retrySystem : Option EmailRetrySystem) (job : IndividualEmail) (n : Net σ) :
    EmailResult × Net σ :=
  match retry, retrySystem with
  | true, some ers =>
    let run := SendWithRetry tbl ers (sendEmail srv (some job)) n
    (⟨job, run.err.isNone, run.err, run.attempts⟩, run.final)
  | _, _ =>
    let r := sendEmail srv (some job) n
    (⟨job, r.1.isNone, r.1, 1⟩, r.2)

/-! ## The worker pool's lifecycle -/

/-- A buffered Go channel: the queued values, the capacity given to `make`, and whether
`close` has been called on it. -/
structure Chan (α : Type) where
  buf : List α
  cap : Nat
  closed : Bool
  deriving DecidableEq, Repr

/-- How a call ends: it returns a value, it panics, or it never returns. -/
inductive Outcome (α : Type) where
  | ret (value : α)
  | panic (msg : GoString)
  | blocked
  deriving DecidableEq, Repr

/-- The lifecycle fields of `EmailWorkerPool`. `JobQueue.buf` holds the jobs accepted and
not yet reported by a worker; `quitClosed` says whether the channel `quit` has been
closed, which is the only way its receive case in `AddEmail` can become ready. -/
structure EmailWorkerPool where
  NumWorkers : Nat
  JobQueue : Chan IndividualEmail
  ResultQueue : Chan EmailResult
  quitClosed : Bool
  started : Bool
  Retry : Bool
  RetrySystem : Option EmailRetrySystem
  deriving DecidableEq, Repr

/-- The function `NewEmailWorkerPool`; `retry` is the `Retry` flag of the given `Config`.
(`numWorkers` is a natural number: `make` panics on a negative capacity.) -/
def NewEmailWorkerPool (retry : Bool) (numWorkers : Nat) (maxRetries : Int) : EmailWorkerPool :=
  { NumWorkers := numWorkers
    JobQueue := ⟨[], numWorkers * 2, false⟩
    ResultQueue := ⟨[], numWorkers * 2, false⟩
    quitClosed := false
    started := false
    Retry := retry
    RetrySystem := some (NewRetrySystem maxRetries) }

/-- The method `EmailWorkerPool.Start`. -/
def Start (ewp : EmailWorkerPool) : EmailWorkerPool :=
  if ewp.started then ewp else { ewp with started := true }

/-- The method `EmailWorkerPool.AddEmail` on a non-nil message. The `select` has a send
case on `JobQueue` (ready when the queue has room, and also when it is closed, where
taking it panics), a receive case on `quit` (ready only once `quit` is closed) and a
`default`; `pick` is the runtime's choice when both cases are ready. -/
def AddEmail (pick : Bool) (ewp : EmailWorkerPool) (email : IndividualEmail) :
    Outcome (Option GoError) × EmailWorkerPool :=
  if !ewp.started then (.ret (some (.errorf "worker pool not started")), ewp)
  else
    let sendReady := ewp.JobQueue.closed || decide (ewp.JobQueue.buf.length < ewp.JobQueue.cap)
    let quitReady := ewp.quitClosed
    if sendReady && (!quitReady || pick) then
      if ewp.JobQueue.closed then (.panic "send on closed channel", ewp)
      else
        (.ret none, { ewp with JobQueue := { ewp.JobQueue with buf := ewp.JobQueue.buf ++ [email] } })
    else if quitReady then (.ret (some (.errorf "worker pool is shutting down")), ewp)
    else (.ret (some (.errorf "job queue is full")), ewp)

/-- The method `EmailWorkerPool.Stop`, run with no other goroutine than the workers;
`work` is what a worker reports for a job. After `close(ewp.JobQueue)` the call waits for
the workers, who send one result per pending job on `ResultQueue` (a panic if that channel
is closed, no return if its buffer cannot take them), then closes `ResultQueue` and clears
`started`. -/
def Stop (work : IndividualEmail → EmailResult) (ewp : EmailWorkerPool) :
    Outcome Unit × EmailWorkerPool :=
  if !ewp.started then (.ret (), ewp)
  else if ewp.JobQueue.closed then (.panic "close of closed channel", ewp)
  else
    let results := ewp.JobQueue.buf.map work
    let ewp1 := { ewp with JobQueue := { ewp.JobQueue with closed := true } }
    if results ≠ [] ∧ ewp.ResultQueue.closed then (.panic "send on closed channel", ewp1)
    else if ewp.ResultQueue.cap < ewp.ResultQueue.buf.length + results.length then
      (.blocked, ewp1)
    else
      let ewp2 := { ewp1 with
        JobQueue := { ewp1.JobQueue with buf := [] }
        ResultQueue := { ewp1.ResultQueue with buf := ewp1.ResultQueue.buf ++ results } }
      if ewp.ResultQueue.closed then (.panic "close of closed channel", ewp2)
      else
        (.ret (), { ewp2 with
          ResultQueue := { ewp2.ResultQueue with closed := true }
          started := false })

/-! ## The protocol session (smtp/message.go, smtp/utils.go) -/

/-- The runes that may stand between `%` and the verb of a format directive: flags,
width and precision digits, `*`, `.`, and the `[` of an argument index. -/
def directiveModifier (c : Char) : Bool :=
  c = '#' || c = '+' || c = '-' || c = ' ' || c = '*' || c = '.' || c = '[' || c.isDigit

/-- The library function `fmt.Sprintf(format)` called with no operands, for formats whose
directives are a `%` directly followed by the verb: text is copied, `%%` prints `%`, a
verb with no operand prints `%!verb(MISSING)`, and a `%` ending the format prints
`%!(NOVERB)`. Formats with a modified directive are outside the model (`none`). -/
def sprintfNoOperands : GoString → Option GoString
  | [] => some []
  | c :: rest =>
    if c ≠ '%' then (sprintfNoOperands rest).map (fun out => c :: out)
    else
      match rest with
      | [] => some "%!(NOVERB)"
      | verb :: rest1 =>
        if verb = '%' then (sprintfNoOperands rest1).map (fun out => '%' :: out)
        else if directiveModifier verb then none
        else (sprintfNoOperands rest1).map (fun out => "%!" ++ [verb] ++ "(MISSING)" ++ out)

/-- The type `Header_t` of the session's message. -/
structure Header_t where
  From : GoString
  To : List GoString
  Cc : List GoString
  Bcc : List GoString
  deriving DecidableEq, Repr

/-- The behaviour of the `textproto.Conn` under the session: writing and flushing one
line, and `ReadResponse(expectCode)`. -/
structure TextConn (σ : Type) where
  WriteLine : GoString → σ → Option GoError × σ
  ReadResponse : Nat → σ → (Nat × GoString × Option GoError) × σ

/-- The connection's state together with the bytes written to it, line by line. -/
structure Wire (σ : Type) where
  state : σ
  written : List GoString

/-- The constant `OK` of the reply-code table. -/
def OK : Nat := 250

/-- The method `writeConnWrapper`: `strings.Join(message, "")`. -/
def writeConnWrapper (message : List GoString) : GoString := Join message ""

/-- The library method `PrintfLine(format)` called with no operands: the formatted line
followed by CRLF is written to the connection. -/
def PrintfLine {σ : Type} (conn : TextConn σ) (format : GoString) (w : Wire σ) :
    Option (Option GoError × Wire σ) :=
  (sprintfNoOperands format).map fun line =>
    ((conn.WriteLine (line ++ "\r\n") w.state).1,
      ⟨(conn.WriteLine (line ++ "\r\n") w.state).2, w.written ++ [line ++ "\r\n"]⟩)

/-- The method `writeFromConn`: the joined arguments are passed to `PrintfLine` as its
format, with no operands. -/
def writeFromConn {σ : Type} (conn : TextConn σ) (message : List GoString) (w : Wire σ) :
    Option (Option GoError × Wire σ) :=
  PrintfLine conn (writeConnWrapper message) w

/-- The method `readFromConn`, reduced to the error it returns. -/
def readFromConn {σ : Type} (conn : TextConn σ) (expected : Nat) (w : Wire σ) :
    Option GoError × Wire σ :=
  ((conn.ReadResponse expected w.state).1.2.2, ⟨(conn.ReadResponse expected w.state).2, w.written⟩)

/-- The method `from` of the session. -/
def sessionFrom {σ : Type} (conn : TextConn σ) (header : Header_t) (w : Wire σ) :
    Option (Option GoError × Wire σ) :=
  (writeFromConn conn ["MAIL FROM:<%s>", header.From] w).map fun r =>
    match r with
    | (some err, w1) => (some err, w1)
    | (none, w1) => readFromConn conn OK w1

/-- The loop of the method `to` over `allRecipients`. -/
def sessionToLoop {σ : Type} (conn : TextConn σ) :
    List GoString → Wire σ → Option (Option GoError × Wire σ)
  | [], w => some (none, w)
  | recipient :: rest, w =>
    match writeFromConn conn ["RCPT TO:<%s>", recipient] w with
    | none => none
    | some (some err, w1) => some (some err, w1)
    | some (none, w1) =>
      match readFromConn conn OK w1 with
      | (some err, w2) => some (some err, w2)
      | (none, w2) => sessionToLoop conn rest w2

/-- The method `to` of the session. -/
def sessionTo {σ : Type} (conn : TextConn σ) (header : Header_t) (w : Wire σ) :
    Option (Option GoError × Wire σ) :=
  sessionToLoop conn (header.To ++ header.Cc ++ header.Bcc) w

/-- The message `s` contains `phrase` in some letter case: a contiguous run of `s` equals
`phrase` once basic Latin capitals are lowered on both sides. -/
def containsAnyCase (s phrase : GoString) : Prop :=
  ∃ w, w <:+: s ∧ w.map Char.toLower = phrase.map Char.toLower

/-- The method `EmailWorkerPool.ProcessEmails` needs the other goroutines: the workers and
the caller's `range ewp.ResultQueue` loop. One step of them: the workers finish the first
`k` queued jobs and send their results, which the caller appends to `results`. A result
sent on a closed `ResultQueue` is a panic. -/
def workersRun (work : IndividualEmail → EmailResult) (k : Nat) (ewp : EmailWorkerPool)
    (results : List EmailResult) : Outcome Unit × EmailWorkerPool × List EmailResult :=
  if (ewp.JobQueue.buf.take k) ≠ [] ∧ ewp.ResultQueue.closed then
    (.panic "send on closed channel", ewp, results)
  else
    (.ret (), { ewp with JobQueue := { ewp.JobQueue with buf := ewp.JobQueue.buf.drop k } },
      results ++ (ewp.JobQueue.buf.take k).map work)

/-- The loop of the goroutine started by `ProcessEmails`: `AddEmail` on each message, its
error only printed. `sched` says how many queued jobs the workers finish after each
submission (`0` once the list is used up). -/
def submitLoop (work : IndividualEmail → EmailResult) (pick : Bool) :
    List Nat → List IndividualEmail → EmailWorkerPool → List EmailResult →
      Outcome Unit × EmailWorkerPool × List EmailResult
  | _, [], ewp, results => (.ret (), ewp, results)
  | sched, email :: rest, ewp, results =>
    match AddEmail pick ewp email with
    | (.panic msg, ewp1) => (.panic msg, ewp1, results)
    | (.blocked, ewp1) => (.blocked, ewp1, results)
    | (.ret _, ewp1) =>
      match workersRun work (sched.headD 0) ewp1 results with
      | (.ret (), ewp2, results2) => submitLoop work pick sched.tail rest ewp2 results2
      | (out, ewp2, results2) => (out, ewp2, results2)

/-- The end of the goroutine started by `ProcessEmails`, after its sleep: `ewp.Stop()`
while the caller keeps receiving. It is `Stop` with a receiver on `ResultQueue`, so the
workers' results never wait for room in the buffer. -/
def stopCollecting (work : IndividualEmail → EmailResult) (ewp : EmailWorkerPool)
    (results : List EmailResult) : Outcome Unit × EmailWorkerPool × List EmailResult :=
  if !ewp.started then (.ret (), ewp, results)
  else if ewp.JobQueue.closed then (.panic "close of closed channel", ewp, results)
  else
    let ewp1 := { ewp with JobQueue := { ewp.JobQueue with closed := true } }
    match workersRun work ewp1.JobQueue.buf.length ewp1 results with
    | (.ret (), ewp2, results2) =>
      if ewp2.ResultQueue.closed then (.panic "close of closed channel", ewp2, results2)
      else
        (.ret (), { ewp2 with
            ResultQueue := { ewp2.ResultQueue with buf := [], closed := true }
            started := false },
          results2 ++ ewp2.ResultQueue.buf)
    | (out, ewp2, results2) => (out, ewp2, results2)

/-- The method `EmailWorkerPool.ProcessEmails`: `Start`, then the goroutine that submits
every message and stops the pool, while the caller collects from `ResultQueue` until it
is closed. A panic in the goroutine ends the program, so it is the outcome of the call. -/
def ProcessEmails (work : IndividualEmail → EmailResult) (pick : Bool) (sched : List Nat)
    (ewp : EmailWorkerPool) (emails : List IndividualEmail) :
    Outcome (List EmailResult) × EmailWorkerPool :=
  match submitLoop work pick sched emails (Start ewp) [] with
  | (.ret (), ewp1, results1) =>
    match stopCollecting work ewp1 results1 with
    | (.ret (), ewp2, results2) => (.ret results2, ewp2)
    | (.panic msg, ewp2, _) => (.panic msg, ewp2)
    | (.blocked, ewp2, _) => (.blocked, ewp2)
  | (.panic msg, ewp1, _) => (.panic msg, ewp1)
  | (.blocked, ewp1, _) => (.blocked, ewp1)

/-! ## The line buffer (utils/buffer.go) -/

/-- The type `Buffer_Config_t`: `Cap` and `Len` are `int64`, `ResizeFactor` is `int32`. -/
structure Buffer_Config_t where
  Cap : Int
  Len : Int
  ResizeFactor : Int
  deriving DecidableEq, Repr

/-- The type `Buffer_t`; `Buffer` is the content of the slice. -/
structure Buffer_t where
  Buffer : List GoString
  Config : Buffer_Config_t
  deriving DecidableEq, Repr

/-- Whether `make([]string, 0, c)` returns: it panics ("cap out of range") on a negative
capacity and on one above `maxCap`, the largest capacity the runtime accepts for a slice
of strings (the allocation limit divided by the size of a string header). -/
def makeSliceOk (maxCap : Nat) (c : Int) : Bool := decide (0 ≤ c ∧ c ≤ (maxCap : Int))

/-- Arithmetic on `int64` wraps around. -/
def wrapInt64 (x : Int) : Int := (x + 2 ^ 63) % 2 ^ 64 - 2 ^ 63

/-- The conversion `int64(f)` of an integer-valued `float64` (the one of `durationOfFloat`). -/
def int64OfFloat (f : Int) : Int := durationOfFloat f

/-- The function `NewBuffer`; `none` is the panic of `make`. -/
def NewBuffer (maxCap : Nat) (capacity : Int) (resizeFactor : Int) : Option Buffer_t :=
  if makeSliceOk maxCap capacity then
    some { Buffer := [], Config := { Cap := capacity, Len := 0, ResizeFactor := resizeFactor } }
  else none

/-- One iteration of the loop of `Buffer_t.Write`: append, count, and when `Len` has
reached `Cap` move the content to a slice made with
`int64(float64(Cap) * float64(ResizeFactor))` (an `int32` converts to `float64` exactly);
`none` is the panic of that `make`. -/
def Buffer_t.writeOne (maxCap : Nat) (b : Buffer_t) (str : GoString) : Option Buffer_t :=
  let buffer := b.Buffer ++ [str]
  let len := wrapInt64 (b.Config.Len + 1)
  if len ≥ b.Config.Cap then
    let newCap := int64OfFloat (roundFloat64 (roundFloat64 b.Config.Cap * b.Config.ResizeFactor))
    if makeSliceOk maxCap newCap then
      some { Buffer := buffer, Config := { b.Config with Cap := newCap, Len := len } }
    else none
  else some { Buffer := buffer, Config := { b.Config with Len := len } }

/-- The method `Buffer_t.Write`. -/
def Buffer_t.Write (maxCap : Nat) (b : Buffer_t) : List GoString → Option Buffer_t
  | [] => some b
  | str :: rest =>
    match b.writeOne maxCap str with
    | none => none
    | some b1 => b1.Write maxCap rest

/-- The method `Buffer_t.Get`. -/
def Buffer_t.Get (b : Buffer_t) : GoString := Join b.Buffer ""

/-- The method `Buffer_t.Reset`. -/
def Buffer_t.Reset (b : Buffer_t) : Buffer_t :=
  { Buffer := b.Buffer.take 0, Config := { b.Config with Len := 0 } }

/-! ## Sample inputs -/

/-- A connection layer that accepts everything. -/
def acceptAll : Server Unit :=
  { CreateSMTPClient := fun s => (none, s)
    Mail := fun _ s => (none, s)
    Rcpt := fun _ s => (none, s)
    Data := fun s => (none, s)
    Write := fun _ s => (none, s)
    Close := fun s => (none, s)
    Quit := fun s => s
    Now := fun _ => "Mon, 02 Jan 2006 15:04:05 -0700" }

/-- A connection layer whose first `CreateSMTPClient` fails with "connection refused"
and which accepts everything afterwards; the state counts the connection attempts. -/
def refusesOnce : Server Nat :=
  { CreateSMTPClient := fun c =>
      (if c = 0 then some (.errorf "dial tcp 127.0.0.1:465: connect: connection refused")
        else none, c + 1)
    Mail := fun _ s => (none, s)
    Rcpt := fun _ s => (none, s)
    Data := fun s => (none, s)
    Write := fun _ s => (none, s)
    Close := fun s => (none, s)
    Quit := fun s => s
    Now := fun _ => "Mon, 02 Jan 2006 15:04:05 -0700" }

/-- A well-formed message. -/
def helloMail : IndividualEmail :=
  { ID := 1, From := "a@b.c", To := "d@e.f", Cc := [], Bcc := [], Subject := "hi", Body := "yo" }

/-- A message without a subject. -/
def noSubjectMail : IndividualEmail :=
  { ID := 2, From := "a@b.c", To := "d@e.f", Cc := [], Bcc := [], Subject := "", Body := "yo" }

/-- A connection layer whose TLS handshake fails on a certificate mismatch, as
`CreateSMTPClient` reports it. -/
def badCertificate : Server Unit :=
  { acceptAll with
    CreateSMTPClient := fun s =>
      (some (wrapErr "TLS handshake failed: "
        (.errorf "x509: certificate is valid for mx550.example.com")), s) }

/-- A message whose sender is the word "timeout". -/
def timeoutSender : IndividualEmail :=
  { ID := 3, From := "timeout", To := "d@e.f", Cc := [], Bcc := [], Subject := "hi", Body := "yo" }

/-- A send that always fails with a timeout; the state counts the invocations. -/
def alwaysTimeout : Nat → Option GoError × Nat :=
  fun c => (some (.errorf "read tcp 10.0.0.1:465: i/o timeout"), c + 1)

/-- A worker report for a job that was sent at the first attempt. -/
def reportSent : IndividualEmail → EmailResult := fun job => ⟨job, true, none, 1⟩

/-- A started pool with one worker whose job queue (capacity 2) is full. -/
def fullPool : EmailWorkerPool :=
  { Start (NewEmailWorkerPool true 1 3) with JobQueue := ⟨[helloMail, noSubjectMail], 2, false⟩ }

/-- A message with a Cc entry that is not empty and has no "@". -/
def ccWithoutAt : IndividualEmail :=
  { ID := 4, From := "a@b.c", To := "d@e.f", Cc := ["postmaster"], Bcc := ["g@h.i"],
    Subject := "hi", Body := "yo" }

/-- A connection layer that rejects the recipient "g@h.i" and accepts the others. -/
def rejectsOne : Server Unit :=
  { acceptAll with
    Rcpt := fun r s => (if r = ("g@h.i" : GoString) then some (.errorf "550 no such user") else none, s) }

/-- A text connection on which every write succeeds and every reply is the expected one. -/
def okConn : TextConn Unit :=
  { WriteLine := fun _ s => (none, s)
    ReadResponse := fun expected s => ((expected, "OK", none), s) }

/-- A session message with one recipient. -/
def sampleHeader : Header_t := { From := "a@b.c", To := ["d@e.f"], Cc := [], Bcc := [] }

/-- The largest slice capacity on a 64-bit platform: `2^48` bytes over 16-byte headers. -/
def maxCap64 : Nat := 2 ^ 44

/-- Five fragments. -/
def fiveFragments : List GoString := ["Subject: hi\r\n", "From: a@b.c\r\n", "\r\n", "yo", "\r\n.\r\n"]

/-- The buffer after `NewBuffer(2, 2)`. -/
def emptyBuffer : Buffer_t := { Buffer := [], Config := { Cap := 2, Len := 0, ResizeFactor := 2 } }

/-- The buffer after the five fragments were written to `emptyBuffer`: two resizes, 2 to 4 to 8. -/
def fiveWritten : Buffer_t :=
  { Buffer := fiveFragments, Config := { Cap := 8, Len := 5, ResizeFactor := 2 } }

/-- A pool with one worker, as `NewEmailWorkerPool` returns it. -/
def freshPool : EmailWorkerPool := NewEmailWorkerPool true 1 3

/-! ## Theorems -/

/-! ### Validation and the connection step -/

theorem rcptLoop_calls_ext {σ : Type} (srv : Server σ) (rs : List GoString) (n : Net σ) :
    ∃ ext, (rcptLoop srv rs n).2.calls = n.calls ++ ext := by
  induction rs generalizing n with
  | nil => exact ⟨[], by simp [rcptLoop]⟩
  | cons r rest ih =>
    unfold rcptLoop
    cases h : (srv.Rcpt r n.state).1 with
    | some err => exact ⟨[.rcpt r], by simp [netCall, h]⟩
    | none =>
      obtain ⟨ext, hext⟩ := ih ⟨(srv.Rcpt r n.state).2, n.calls ++ [.rcpt r]⟩
      exact ⟨.rcpt r :: ext, by simp [netCall, h, hext]⟩

theorem validateEmail_none_iff (email : IndividualEmail) :
    validateEmail (some email) = none ↔
      ¬(email.From = [] ∨ email.To = [] ∨ email.Subject = [] ∨ email.Body = [] ∨
        Contains email.From "@" = false ∨ Contains email.To "@" = false) := by
  simp only [validateEmail]
  split_ifs <;> simp_all

theorem sendEmail_of_invalid {σ : Type} (srv : Server σ) (email : Option IndividualEmail)
    (n : Net σ) (err : GoError) (h : validateEmail email = some err) :
    sendEmail srv email n = (some (wrapErr "validation failed: " err), n) := by
  unfold sendEmail
  rw [h]

theorem sendEmail_of_valid {σ : Type} (srv : Server σ) (email : IndividualEmail)
    (n : Net σ) (h : validateEmail (some email) = none) :
    n.calls ++ [NetCall.createSMTPClient] <+: (sendEmail srv (some email) n).2.calls := by
  unfold sendEmail
  rw [h]
  simp only
  cases h1 : (srv.CreateSMTPClient n.state).1 with
  | some err => simp [netCall, h1]
  | none =>
    simp only [netCall, h1, deferQuit]
    cases h2 : (srv.Mail email.From (srv.CreateSMTPClient n.state).2).1 with
    | some err => simp
    | none =>
      simp only []
      obtain ⟨ext, hext⟩ := rcptLoop_calls_ext srv (allRecipients email)
        ⟨(srv.Mail email.From (srv.CreateSMTPClient n.state).2).2,
          n.calls ++ [NetCall.createSMTPClient] ++ [NetCall.mail email.From]⟩
      rcases h3 : defineRecipients srv email
        ⟨(srv.Mail email.From (srv.CreateSMTPClient n.state).2).2,
          n.calls ++ [NetCall.createSMTPClient] ++ [NetCall.mail email.From]⟩ with ⟨e3, n3⟩
      have hn3 : n3.calls = n.calls ++ [NetCall.createSMTPClient] ++ [NetCall.mail email.From] ++ ext := by
        rw [defineRecipients] at h3
        rw [h3] at hext
        exact hext
      cases e3 with
      | some err => simp [hn3]
      | none =>
        simp only []
        cases h4 : (srv.Data n3.state).1 with
        | some err => simp [hn3]
        | none =>
          simp only []
          cases h5 : (srv.Write (buildMessage email (srv.Now (srv.Data n3.state).2))
            (srv.Data n3.state).2).1 with
          | some err => simp [hn3]
          | none =>
            simp only []
            cases h6 : (srv.Close (srv.Write (buildMessage email (srv.Now (srv.Data n3.state).2))
              (srv.Data n3.state).2).2).1 with
            | some err => simp [hn3]
            | none => simp [hn3]

/-- C1: for every (non-nil) message, `sendEmail` returns an error whose text starts with
"validation failed" and leaves the connection layer untouched (no call at all, so no
`CreateSMTPClient`) exactly when `From`, `To`, `Subject` or `Body` is empty or `From` or
`To` has no "@"; for every other message `validateEmail` returns nil and the first call
`sendEmail` makes is `CreateSMTPClient`. -/
theorem sendEmail_validation_gate {σ : Type} (srv : Server σ) (email : IndividualEmail)
    (n : Net σ) :
    (((∃ err, (sendEmail srv (some email) n).1 = some err ∧
          ("validation failed" : GoString) <+: err.Error) ∧
        (sendEmail srv (some email) n).2 = n) ↔
      (email.From = [] ∨ email.To = [] ∨ email.Subject = [] ∨ email.Body = [] ∨
        Contains email.From "@" = false ∨ Contains email.To "@" = false)) ∧
    (¬(email.From = [] ∨ email.To = [] ∨ email.Subject = [] ∨ email.Body = [] ∨
        Contains email.From "@" = false ∨ Contains email.To "@" = false) →
      validateEmail (some email) = none ∧
        n.calls ++ [NetCall.createSMTPClient] <+: (sendEmail srv (some email) n).2.calls) := by
  refine ⟨⟨?_, ?_⟩, ?_⟩
  · rintro ⟨_, hnet⟩
    by_contra hv
    have hpre := sendEmail_of_valid srv email n ((validateEmail_none_iff email).2 hv)
    rw [hnet] at hpre
    have hlen := hpre.length_le
    simp at hlen
  · intro hinv
    have hne : validateEmail (some email) ≠ none :=
      fun h => (validateEmail_none_iff email).1 h hinv
    obtain ⟨e, he⟩ := Option.ne_none_iff_exists'.1 hne
    rw [sendEmail_of_invalid srv (some email) n e he]
    exact ⟨⟨_, rfl, by simp [wrapErr, GoError.Error]⟩, rfl⟩
  · intro hv
    exact ⟨(validateEmail_none_iff email).2 hv,
      sendEmail_of_valid srv email n ((validateEmail_none_iff email).2 hv)⟩

/-- C1 at a well-formed message: validation passes and the first call is `CreateSMTPClient`. -/
theorem sendEmail_validation_gate_witness :
    validateEmail (some helloMail) = none ∧
      ([] : List NetCall) ++ [NetCall.createSMTPClient] <+:
        (sendEmail acceptAll (some helloMail) ⟨(), []⟩).2.calls :=
  (sendEmail_validation_gate acceptAll helloMail ⟨(), []⟩).2 (by decide)


/-! ### SendWithRetry: success and the attempt count -/

theorem afterSends_succ {σ : Type} (send : σ → Option GoError × σ) (i : Nat) (s : σ) :
    afterSends send (i + 1) s = afterSends send i (send s).2 := by
  simp [afterSends, Function.iterate_succ_apply]

set_option maxRecDepth 100000 in
/-- The end-to-end case of the specification: a worker with retry enabled, on a transport
that refuses the first connection and then accepts, reports `Success = true` and
`Attempts = 2`. -/
theorem workerJob_retry_then_success :
    (workerJob asciiTable refusesOnce true (some (NewRetrySystem 3)) helloMail ⟨0, []⟩).1 =
      ⟨helloMail, true, none, 2⟩ := by
  decide

set_option maxRecDepth 100000 in
/-- C3 (the code at the failing input): with `maxRetries = 3` and a message without a
subject, the single attempt fails validation, which is not retryable; the send was invoked
once, yet the count returned (and the one named in the error text) is 3. -/
theorem SendWithRetry_nonretryable_count :
    (SendWithRetry asciiTable (NewRetrySystem 3) (sendEmail acceptAll (some noSubjectMail))
        ⟨(), []⟩).sends = 1 ∧
      (SendWithRetry asciiTable (NewRetrySystem 3) (sendEmail acceptAll (some noSubjectMail))
        ⟨(), []⟩).attempts = 3 ∧
      (SendWithRetry asciiTable (NewRetrySystem 3) (sendEmail acceptAll (some noSubjectMail))
        ⟨(), []⟩).err =
        some (wrapErr "failed after 3 attempts: "
          (wrapErr "validation failed: " (.errorf "subject is required"))) := by
  decide


/-! ### shouldRetry -/

theorem toLowerRune_eq_of_lower_le (tbl : Char → Char) (c : Char)
    (h : (Char.toLower c).toNat ≤ 127) : toLowerRune tbl c = Char.toLower c := by
  have hc : c.toNat ≤ 127 := by
    by_contra hgt
    have : Char.toLower c = c := by
      simp only [Char.toLower]
      rw [if_neg]
      omega
    rw [this] at h
    exact hgt h
  simp only [toLowerRune, Char.toLower, hc, if_true]

/-- A phrase of lower-case ASCII that the message contains in some letter case is found
by `strings.Contains(strings.ToLower(errStr), phrase)`, whatever the case table. -/
theorem Contains_ToLower_of_containsAnyCase (tbl : Char → Char) (s phrase : GoString)
    (hp : ∀ c ∈ phrase, c.toNat ≤ 127 ∧ Char.toLower c = c)
    (h : containsAnyCase s phrase) : Contains (ToLower tbl s) phrase = true := by
  obtain ⟨w, hw, hmap⟩ := h
  have hpl : phrase.map Char.toLower = phrase := by
    conv_rhs => rw [← List.map_id phrase]
    exact List.map_congr_left (fun c hc => (hp c hc).2)
  rw [hpl] at hmap
  have hwl : w.map (toLowerRune tbl) = phrase := by
    rw [← hmap]
    apply List.map_congr_left
    intro c hc
    apply toLowerRune_eq_of_lower_le
    have hmem : Char.toLower c ∈ phrase := by
      rw [← hmap]
      exact List.mem_map_of_mem _ hc
    exact (hp _ hmem).1
  have := List.IsInfix.map (toLowerRune tbl) hw
  rw [hwl] at this
  simpa [Contains, ToLower] using this

theorem shouldRetry_of_retryable_match (tbl : Char → Char) (err : GoError) (phrase : GoString)
    (hmem : phrase ∈ retryableErrors)
    (h : Contains (ToLower tbl err.Error) phrase = true) : shouldRetry tbl err = true := by
  have hany : retryableErrors.any
      (fun retryable => Contains (ToLower tbl err.Error) retryable) = true :=
    List.any_eq_true.2 ⟨phrase, hmem, h⟩
  simp only [shouldRetry, hany, if_true]

/-- For the eight lower-case entries of `retryableErrors`, a message that contains the
phrase in any letter case is retryable, whatever else it contains. -/
theorem shouldRetry_of_lowercase_retryable_phrase (tbl : Char → Char) (err : GoError)
    (phrase : GoString) (hmem : phrase ∈ retryableErrors)
    (hne : phrase ≠ ("TLS handshake failed" : GoString))
    (h : containsAnyCase err.Error phrase) : shouldRetry tbl err = true := by
  apply shouldRetry_of_retryable_match tbl err phrase hmem
  apply Contains_ToLower_of_containsAnyCase tbl _ _ _ h
  simp only [retryableErrors, List.mem_cons, List.mem_singleton, List.not_mem_nil, or_false] at hmem
  rcases hmem with rfl | rfl | rfl | rfl | rfl | rfl | rfl | rfl | rfl
  all_goals first
    | exact absurd rfl hne
    | decide

/-- C4, counterexample: a message that contains "550" and also a phrase of the retryable
list ("timeout") is classified as retryable. -/
theorem shouldRetry_true_despite_550 :
    containsAnyCase ("550 mailbox unavailable: connection timeout" : GoString) "550" ∧
      shouldRetry asciiTable (.errorf "550 mailbox unavailable: connection timeout") = true :=
  ⟨⟨"550", by decide, by decide⟩, by decide⟩

/-- C4, amended: for every error whose message contains, in any letter case, one of
"authentication failed", "invalid credentials", "535" or "550", and whose lowered message
contains none of the entries of `retryableErrors`, `shouldRetry` returns false. -/
theorem shouldRetry_false_of_permanent_phrase (tbl : Char → Char) (err : GoError)
    (hperm : containsAnyCase err.Error "authentication failed" ∨
      containsAnyCase err.Error "invalid credentials" ∨
      containsAnyCase err.Error "535" ∨ containsAnyCase err.Error "550")
    (hnone : ∀ retryable ∈ retryableErrors,
      Contains (ToLower tbl err.Error) retryable = false) :
    shouldRetry tbl err = false := by
  have h1 : retryableErrors.any
      (fun retryable => Contains (ToLower tbl err.Error) retryable) = false := by
    rw [List.any_eq_false]
    intro r hr
    simp [hnone r hr]
  have h2 : nonRetryableErrors.any
      (fun nonRetryable => Contains (ToLower tbl err.Error) nonRetryable) = true := by
    rw [List.any_eq_true]
    rcases hperm with h | h | h | h
    · exact ⟨"authentication failed", by decide,
        Contains_ToLower_of_containsAnyCase tbl _ _ (by decide) h⟩
    · exact ⟨"invalid credentials", by decide,
        Contains_ToLower_of_containsAnyCase tbl _ _ (by decide) h⟩
    · exact ⟨"535", by decide, Contains_ToLower_of_containsAnyCase tbl _ _ (by decide) h⟩
    · exact ⟨"550", by decide, Contains_ToLower_of_containsAnyCase tbl _ _ (by decide) h⟩
  simp [shouldRetry, h1, h2]

set_option maxRecDepth 100000 in
/-- C4 (amended) at the reply "535 5.7.8 Authentication Failed". -/
theorem shouldRetry_false_of_permanent_phrase_witness :
    shouldRetry asciiTable (.errorf "535 5.7.8 Authentication Failed") = false :=
  shouldRetry_false_of_permanent_phrase asciiTable (.errorf "535 5.7.8 Authentication Failed")
    (Or.inl ⟨"Authentication Failed", by decide, by decide⟩) (by decide)

set_option maxRecDepth 100000 in
/-- C5 (the code at the failing input): the entry "TLS handshake failed" of
`retryableErrors` has capitals and is compared with the lowered message, so it never
matches. The error `sendEmail` returns when `CreateSMTPClient` reports a failed TLS
handshake on a certificate for `mx550.example.com` contains the phrase, but it also
contains "550" and is classified as not retryable; a policy with three attempts sends once. -/
theorem shouldRetry_false_on_tls_handshake_failure :
    (∃ err, (sendEmail badCertificate (some helloMail) ⟨(), []⟩).1 = some err ∧
      containsAnyCase err.Error "TLS handshake failed" ∧
      shouldRetry asciiTable err = false) ∧
    (SendWithRetry asciiTable (NewRetrySystem 3) (sendEmail badCertificate (some helloMail))
      ⟨(), []⟩).sends = 1 :=
  ⟨⟨_, rfl, ⟨"TLS handshake failed", by decide, by decide⟩, by decide⟩, by decide⟩

set_option maxRecDepth 100000 in
/-- C6 (the code at the failing input): the sender "timeout" has no "@", so `sendEmail`
fails validation without any network call; the error text ends with the sender, hence
contains "timeout", and `shouldRetry` classifies it as retryable: with `maxRetries = 2`
the send is invoked twice. -/
theorem validation_failure_retried :
    (∃ err, sendEmail acceptAll (some timeoutSender) ⟨(), []⟩ = (some err, ⟨(), []⟩) ∧
      ("validation failed" : GoString) <+: err.Error ∧
      shouldRetry asciiTable err = true) ∧
    (SendWithRetry asciiTable (NewRetrySystem 2) (sendEmail acceptAll (some timeoutSender))
      ⟨(), []⟩).sends = 2 :=
  ⟨⟨_, rfl, by decide, by decide⟩, by decide⟩


/-! ### The backoff schedule -/

theorem roundFloat64_of_lt (n : Int) (h : n.natAbs < 2 ^ 53) : roundFloat64 n = n := by
  simp only [roundFloat64]
  rw [if_pos h]

theorem scaleBackoff_exact (ers : EmailRetrySystem) (b : Int) (hb : 0 ≤ b)
    (hm : 0 ≤ ers.multiplier) (h : b * ers.multiplier < 2 ^ 53) :
    scaleBackoff ers b = b * ers.multiplier := by
  have h53 : b * ers.multiplier < 9007199254740992 := by norm_num at h; exact h
  rcases eq_or_lt_of_le hm with h0 | hpos
  · simp [scaleBackoff, ← h0, roundFloat64, durationOfFloat]
  · have hle : b ≤ b * ers.multiplier := le_mul_of_one_le_right hb hpos
    have h1 : roundFloat64 b = b := roundFloat64_of_lt b (by norm_num; omega)
    have hp : 0 ≤ b * ers.multiplier := mul_nonneg hb hm
    have h2 : roundFloat64 (b * ers.multiplier) = b * ers.multiplier :=
      roundFloat64_of_lt _ (by norm_num; omega)
    simp only [scaleBackoff, h1, h2, durationOfFloat]
    rw [if_pos]
    constructor <;> norm_num <;> omega

theorem nextBackoff_eq_min (ers : EmailRetrySystem) (b : Duration) :
    nextBackoff ers b = min (scaleBackoff ers b) ers.maxBackoff := by
  unfold nextBackoff
  split_ifs with h
  · exact (min_eq_right (le_of_lt h)).symm
  · exact (min_eq_left (not_lt.1 h)).symm

theorem iterate_nextBackoff (ers : EmailRetrySystem) (i : Nat) :
    (nextBackoff ers)^[i] ers.initialBackoff = backoffSpec ers (i + 1) := by
  induction i with
  | zero => rfl
  | succ i ih =>
    rw [Function.iterate_succ_apply', ih, nextBackoff_eq_min]
    rfl

theorem retryLoop_sleeps_scheduled {σ : Type} (tbl : Char → Char) (ers : EmailRetrySystem)
    (send : σ → Option GoError × σ) :
    ∀ (fuel : Nat) (attempt : Int) (backoff : Duration) (lastErr : Option GoError)
      (sends : Nat) (sleeps : List Duration) (s : σ),
      ∃ r, (retryLoop tbl ers send fuel attempt backoff lastErr sends sleeps s).sleeps =
        sleeps ++ (List.range r).map (fun i => (nextBackoff ers)^[i] backoff) := by
  intro fuel
  induction fuel with
  | zero => intro attempt backoff lastErr sends sleeps s; exact ⟨0, by simp [retryLoop]⟩
  | succ f ih =>
    intro attempt backoff lastErr sends sleeps s
    by_cases h1 : attempt ≤ ers.maxRetries
    · rcases hs : send s with ⟨e, s1⟩
      cases e with
      | none => exact ⟨0, by simp [retryLoop, h1, hs]⟩
      | some err =>
        by_cases h2 : attempt < ers.maxRetries
        · cases h3 : shouldRetry tbl err with
          | false => exact ⟨0, by simp [retryLoop, h1, hs, h2, h3]⟩
          | true =>
            obtain ⟨r, hr⟩ := ih (attempt + 1) (nextBackoff ers backoff) (some err) (sends + 1)
              (sleeps ++ [backoff]) s1
            refine ⟨r + 1, ?_⟩
            simp only [retryLoop, h1, hs, h2, h3, if_true]
            rw [hr, List.range_succ_eq_map]
            simp [Function.iterate_succ_apply, Function.comp_def]
        · simp only [retryLoop, h1, hs, h2, if_true, if_false]
          exact ih _ _ _ _ _ _
    · exact ⟨0, by simp [retryLoop, h1]⟩

theorem retryLoop_sleeps_of_gt {σ : Type} (tbl : Char → Char) (ers : EmailRetrySystem)
    (send : σ → Option GoError × σ) (fuel : Nat) (attempt : Int) (backoff : Duration)
    (lastErr : Option GoError) (sends : Nat) (sleeps : List Duration) (s : σ)
    (h : ers.maxRetries < attempt) :
    (retryLoop tbl ers send fuel attempt backoff lastErr sends sleeps s).sleeps = sleeps := by
  cases fuel with
  | zero => simp [retryLoop]
  | succ f => simp [retryLoop, not_le.2 h]

theorem retryLoop_sleeps_all_fail {σ : Type} (tbl : Char → Char) (ers : EmailRetrySystem)
    (send : σ → Option GoError × σ) :
    ∀ (r fuel : Nat) (attempt : Int) (backoff : Duration) (lastErr : Option GoError)
      (sends : Nat) (sleeps : List Duration) (s : σ),
      r < fuel → attempt + r = ers.maxRetries →
      (∀ i, i < r → ∃ e, (send (afterSends send i s)).1 = some e ∧ shouldRetry tbl e = true) →
      (retryLoop tbl ers send fuel attempt backoff lastErr sends sleeps s).sleeps =
        sleeps ++ (List.range r).map (fun i => (nextBackoff ers)^[i] backoff) := by
  intro r
  induction r with
  | zero =>
    intro fuel attempt backoff lastErr sends sleeps s hfuel hat _
    obtain ⟨f, rfl⟩ : ∃ f, fuel = f + 1 := ⟨fuel - 1, by omega⟩
    have hle : attempt ≤ ers.maxRetries := by simp at hat; omega
    have hnlt : ¬ attempt < ers.maxRetries := by simp at hat; omega
    rcases hs : send s with ⟨e, s1⟩
    cases e with
    | none => simp [retryLoop, hle, hs]
    | some err =>
      simp only [retryLoop, hle, hs, hnlt, if_true, if_false]
      rw [retryLoop_sleeps_of_gt _ _ _ _ _ _ _ _ _ _ (by omega)]
      simp
  | succ r ih =>
    intro fuel attempt backoff lastErr sends sleeps s hfuel hat hfail
    obtain ⟨f, rfl⟩ : ∃ f, fuel = f + 1 := ⟨fuel - 1, by omega⟩
    have hlt : attempt < ers.maxRetries := by push_cast at hat; omega
    obtain ⟨e, he, hre⟩ := hfail 0 (Nat.succ_pos r)
    rcases hs : send s with ⟨e0, s1⟩
    have he0 : e0 = some e := by simpa [afterSends, hs] using he
    subst he0
    have hs1 : s1 = (send s).2 := by rw [hs]
    have hrec := ih f (attempt + 1) (nextBackoff ers backoff) (some e) (sends + 1)
      (sleeps ++ [backoff]) s1 (by omega) (by push_cast at hat; omega)
      (fun i hi => by
        have := hfail (i + 1) (by omega)
        rwa [afterSends_succ, ← hs1] at this)
    simp only [retryLoop, le_of_lt hlt, hlt, hs, hre, if_true]
    rw [hrec, List.range_succ_eq_map]
    simp [Function.iterate_succ_apply, Function.comp_def]

theorem backoffSpec_le_max (ers : EmailRetrySystem) (h : ers.initialBackoff ≤ ers.maxBackoff)
    (n : Nat) : backoffSpec ers n ≤ ers.maxBackoff := by
  match n with
  | 0 => exact h
  | 1 => exact h
  | n + 2 => exact min_le_right _ _

theorem backoffSpec_default_congr (m : Int) (n : Nat) :
    backoffSpec (NewRetrySystem m) n = backoffSpec (NewRetrySystem 0) n := by
  induction n using Nat.strong_induction_on with
  | _ n ih =>
    match n with
    | 0 => rfl
    | 1 => rfl
    | n + 2 =>
      simp only [backoffSpec]
      rw [ih (n + 1) (by omega)]
      rfl

set_option maxRecDepth 100000 in
theorem backoffSpec_default_small (m : Int) :
    (List.range 8).map (fun i => backoffSpec (NewRetrySystem m) (i + 1)) =
      [Second, 2 * Second, 4 * Second, 8 * Second, 16 * Second, 32 * Second,
        60 * Second, 60 * Second] := by
  simp only [backoffSpec_default_congr m]
  decide

set_option maxRecDepth 100000 in
theorem backoffSpec_default_large (m : Int) (n : Nat) (h : 7 ≤ n) :
    backoffSpec (NewRetrySystem m) n = 60 * Second := by
  rw [backoffSpec_default_congr m]
  induction n, h using Nat.le_induction with
  | base => decide
  | succ k hk ih =>
    obtain ⟨j, rfl⟩ : ∃ j, k = j + 1 := ⟨k - 1, by omega⟩
    simp only [backoffSpec]
    rw [ih]
    decide

theorem SendWithRetry_sleeps_scheduled {σ : Type} (tbl : Char → Char) (ers : EmailRetrySystem)
    (send : σ → Option GoError × σ) (s : σ) :
    (SendWithRetry tbl ers send s).sleeps =
      (List.range (SendWithRetry tbl ers send s).sleeps.length).map
        (fun i => backoffSpec ers (i + 1)) := by
  obtain ⟨r, hr⟩ := retryLoop_sleeps_scheduled tbl ers send (ers.maxRetries.toNat + 1) 1
    ers.initialBackoff none 0 [] s
  have hr' : (SendWithRetry tbl ers send s).sleeps =
      (List.range r).map (fun i => backoffSpec ers (i + 1)) := by
    unfold SendWithRetry
    rw [hr]
    simp [iterate_nextBackoff]
  rw [hr']
  simp

theorem SendWithRetry_sleeps_length {σ : Type} (tbl : Char → Char) (ers : EmailRetrySystem)
    (send : σ → Option GoError × σ) (s : σ)
    (hfail : ∀ i : Nat, (i : Int) + 1 < ers.maxRetries →
      ∃ e, (send (afterSends send i s)).1 = some e ∧ shouldRetry tbl e = true) :
    (SendWithRetry tbl ers send s).sleeps.length = ers.maxRetries.toNat - 1 := by
  unfold SendWithRetry
  by_cases h : 1 ≤ ers.maxRetries
  · rw [retryLoop_sleeps_all_fail tbl ers send (ers.maxRetries.toNat - 1)
      (ers.maxRetries.toNat + 1) 1 ers.initialBackoff none 0 [] s (by omega) (by omega)
      (fun i hi => hfail i (by omega))]
    simp
  · rw [retryLoop_sleeps_of_gt _ _ _ _ _ _ _ _ _ _ (by omega)]
    simp
    omega

/-- C7: in `SendWithRetry` the delays slept are, in order, `backoff(1), backoff(2), ...`
with `backoff(1) = initialBackoff` and `backoff(n+1) = min(backoff(n) * multiplier,
maxBackoff)` (the product being the source's float product, exact below `2^53` ns), one
after every retryable failure that leaves attempts; for the `NewRetrySystem` defaults
(1s, 2, 60s) the delays are 1s, 2s, 4s, 8s, 16s, 32s, 60s, 60s, ... and none exceeds
`maxBackoff`. -/
theorem SendWithRetry_backoff_schedule {σ : Type} (tbl : Char → Char) (ers : EmailRetrySystem)
    (send : σ → Option GoError × σ) (s : σ) :
    ((SendWithRetry tbl ers send s).sleeps =
      (List.range (SendWithRetry tbl ers send s).sleeps.length).map
        (fun i => backoffSpec ers (i + 1))) ∧
    ((∀ i : Nat, (i : Int) + 1 < ers.maxRetries →
        ∃ e, (send (afterSends send i s)).1 = some e ∧ shouldRetry tbl e = true) →
      (SendWithRetry tbl ers send s).sleeps.length = ers.maxRetries.toNat - 1) ∧
    backoffSpec ers 1 = ers.initialBackoff ∧
    (∀ n, 1 ≤ n →
      backoffSpec ers (n + 1) = min (scaleBackoff ers (backoffSpec ers n)) ers.maxBackoff) ∧
    (∀ b : Int, 0 ≤ b → 0 ≤ ers.multiplier → b * ers.multiplier < 2 ^ 53 →
      scaleBackoff ers b = b * ers.multiplier) ∧
    (∀ m : Int, (List.range 8).map (fun i => backoffSpec (NewRetrySystem m) (i + 1)) =
      [Second, 2 * Second, 4 * Second, 8 * Second, 16 * Second, 32 * Second,
        60 * Second, 60 * Second]) ∧
    (∀ (m : Int) (n : Nat), 7 ≤ n → backoffSpec (NewRetrySystem m) n = 60 * Second) ∧
    (∀ (m : Int) (n : Nat), backoffSpec (NewRetrySystem m) n ≤ (NewRetrySystem m).maxBackoff) ∧
    (ers.initialBackoff ≤ ers.maxBackoff →
      ∀ d ∈ (SendWithRetry tbl ers send s).sleeps, d ≤ ers.maxBackoff) := by
  refine ⟨SendWithRetry_sleeps_scheduled tbl ers send s,
    SendWithRetry_sleeps_length tbl ers send s, rfl, ?_,
    fun b hb hm h => scaleBackoff_exact ers b hb hm h,
    backoffSpec_default_small, backoffSpec_default_large,
    fun m n => backoffSpec_le_max _ (show Second ≤ 60 * Second by decide) n, ?_⟩
  · intro n hn
    obtain ⟨j, rfl⟩ : ∃ j, n = j + 1 := ⟨n - 1, by omega⟩
    rfl
  · intro hle d hd
    rw [SendWithRetry_sleeps_scheduled tbl ers send s] at hd
    obtain ⟨i, _, rfl⟩ := List.mem_map.1 hd
    exact backoffSpec_le_max ers hle _

set_option maxRecDepth 100000 in
/-- C7 at the default policy with nine attempts that all time out: eight sleeps, none above 60s. -/
theorem SendWithRetry_backoff_schedule_witness :
    (SendWithRetry asciiTable (NewRetrySystem 9) alwaysTimeout 0).sleeps.length = 8 ∧
      ∀ d ∈ (SendWithRetry asciiTable (NewRetrySystem 9) alwaysTimeout 0).sleeps,
        d ≤ 60 * Second :=
  ⟨(SendWithRetry_backoff_schedule asciiTable (NewRetrySystem 9) alwaysTimeout 0).2.1
      (fun _ _ => ⟨_, rfl, by decide⟩),
    (SendWithRetry_backoff_schedule asciiTable (NewRetrySystem 9) alwaysTimeout
      0).2.2.2.2.2.2.2.2 (by decide)⟩

set_option maxRecDepth 100000 in
/-- The default schedule run end to end: nine attempts that all time out sleep
1s, 2s, 4s, 8s, 16s, 32s, 60s, 60s. -/
theorem SendWithRetry_default_delays :
    (SendWithRetry asciiTable (NewRetrySystem 9) alwaysTimeout 0).sleeps =
      [Second, 2 * Second, 4 * Second, 8 * Second, 16 * Second, 32 * Second,
        60 * Second, 60 * Second] := by
  decide


/-! ### AddEmail and the pool's lifecycle -/

/-- C8, counterexample: on a pool that was started and then stopped, `AddEmail` returns
the not-started error, not the shutting-down one. -/
theorem AddEmail_after_Stop_reports_not_started :
    (Stop reportSent (Start (NewEmailWorkerPool true 2 3))).1 = .ret () ∧
      (AddEmail true (Stop reportSent (Start (NewEmailWorkerPool true 2 3))).2 helloMail).1 =
        .ret (some (.errorf "worker pool not started")) ∧
      (AddEmail true (Stop reportSent (Start (NewEmailWorkerPool true 2 3))).2 helloMail).1 ≠
        .ret (some (.errorf "worker pool is shutting down")) := by
  decide

theorem Stop_ret_started (work : IndividualEmail → EmailResult) (ewp : EmailWorkerPool)
    (h : (Stop work ewp).1 = .ret ()) : (Stop work ewp).2.started = false := by
  cases hs : ewp.started <;> cases hc : ewp.JobQueue.closed <;>
    cases hr : ewp.ResultQueue.closed <;>
    by_cases hb : ewp.JobQueue.buf = [] <;>
    simp only [Stop, hs, hc, hr, hb] at h ⊢ <;>
    (try split_ifs at h ⊢) <;> simp_all

theorem Stop_quitClosed (work : IndividualEmail → EmailResult) (ewp : EmailWorkerPool) :
    (Stop work ewp).2.quitClosed = ewp.quitClosed ∧
      (Stop work ewp).2.JobQueue.cap = ewp.JobQueue.cap ∧
      (Stop work ewp).2.NumWorkers = ewp.NumWorkers := by
  cases hs : ewp.started <;> cases hc : ewp.JobQueue.closed <;>
    cases hr : ewp.ResultQueue.closed <;>
    by_cases hb : ewp.JobQueue.buf = [] <;>
    simp only [Stop, hs, hc, hr, hb] <;>
    (try split_ifs) <;> simp_all

theorem AddEmail_quitClosed (pick : Bool) (ewp : EmailWorkerPool) (email : IndividualEmail) :
    (AddEmail pick ewp email).2.quitClosed = ewp.quitClosed ∧
      (AddEmail pick ewp email).2.JobQueue.cap = ewp.JobQueue.cap ∧
      (AddEmail pick ewp email).2.NumWorkers = ewp.NumWorkers := by
  cases hs : ewp.started <;> cases hc : ewp.JobQueue.closed <;>
    cases hq : ewp.quitClosed <;> cases pick <;>
    by_cases hl : ewp.JobQueue.buf.length < ewp.JobQueue.cap <;>
    simp [AddEmail, hs, hc, hq, hl]

/-- While `quit` is open, `AddEmail` neither returns the shutting-down error nor waits. -/
theorem AddEmail_outcome (pick : Bool) (ewp : EmailWorkerPool) (email : IndividualEmail)
    (hquit : ewp.quitClosed = false) :
    (AddEmail pick ewp email).1 ≠ .ret (some (.errorf "worker pool is shutting down")) ∧
      (AddEmail pick ewp email).1 ≠ .blocked := by
  cases hs : ewp.started <;> cases hc : ewp.JobQueue.closed <;> cases pick <;>
    by_cases hl : ewp.JobQueue.buf.length < ewp.JobQueue.cap <;>
    simp [AddEmail, hs, hc, hquit, hl]

theorem Start_quitClosed (ewp : EmailWorkerPool) :
    (Start ewp).quitClosed = ewp.quitClosed ∧
      (Start ewp).JobQueue.cap = ewp.JobQueue.cap ∧
      (Start ewp).NumWorkers = ewp.NumWorkers := by
  unfold Start
  split_ifs <;> simp

theorem AddEmail_not_started (pick : Bool) (ewp : EmailWorkerPool) (email : IndividualEmail)
    (h : ewp.started = false) :
    AddEmail pick ewp email = (.ret (some (.errorf "worker pool not started")), ewp) := by
  simp [AddEmail, h]

/-- C8, amended: `AddEmail` never waits (its `select` has a `default`), and on a pool
built by `NewEmailWorkerPool` and driven by `Start`, `Stop` and `AddEmail` (so `quit` is
open and the job queue's capacity is `2 * NumWorkers`, both kept by every operation):
while the pool is not started, which covers a pool never started and a pool whose `Stop`
has returned, it returns the not-started error; on a started pool whose open job queue
holds `2 * NumWorkers` jobs it returns the queue-full error and leaves the pool unchanged;
on a started pool whose open job queue has room it appends the message and returns nil. -/
theorem AddEmail_classification (work : IndividualEmail → EmailResult) (pick : Bool)
    (ewp : EmailWorkerPool) (email : IndividualEmail)
    (hquit : ewp.quitClosed = false) (hcap : ewp.JobQueue.cap = 2 * ewp.NumWorkers) :
    (ewp.started = false →
      AddEmail pick ewp email = (.ret (some (.errorf "worker pool not started")), ewp)) ∧
    ((Stop work ewp).1 = .ret () →
      AddEmail pick (Stop work ewp).2 email =
        (.ret (some (.errorf "worker pool not started")), (Stop work ewp).2)) ∧
    (ewp.started = true → ewp.JobQueue.closed = false →
      ewp.JobQueue.buf.length = 2 * ewp.NumWorkers →
      AddEmail pick ewp email = (.ret (some (.errorf "job queue is full")), ewp)) ∧
    (ewp.started = true → ewp.JobQueue.closed = false →
      ewp.JobQueue.buf.length < 2 * ewp.NumWorkers →
      AddEmail pick ewp email =
        (.ret none,
          { ewp with JobQueue := { ewp.JobQueue with buf := ewp.JobQueue.buf ++ [email] } })) ∧
    (AddEmail pick ewp email).1 ≠ .blocked ∧
    (∀ (retry : Bool) (numWorkers : Nat) (maxRetries : Int),
      (NewEmailWorkerPool retry numWorkers maxRetries).started = false ∧
      (NewEmailWorkerPool retry numWorkers maxRetries).quitClosed = false ∧
      (NewEmailWorkerPool retry numWorkers maxRetries).JobQueue.cap =
        2 * (NewEmailWorkerPool retry numWorkers maxRetries).NumWorkers) ∧
    ((Start ewp).quitClosed = false ∧ (Start ewp).JobQueue.cap = 2 * (Start ewp).NumWorkers) ∧
    ((Stop work ewp).2.quitClosed = false ∧
      (Stop work ewp).2.JobQueue.cap = 2 * (Stop work ewp).2.NumWorkers) ∧
    ((AddEmail pick ewp email).2.quitClosed = false ∧
      (AddEmail pick ewp email).2.JobQueue.cap = 2 * (AddEmail pick ewp email).2.NumWorkers) := by
  refine ⟨AddEmail_not_started pick ewp email,
    fun h => AddEmail_not_started pick _ email (Stop_ret_started work ewp h),
    ?_, ?_, ?_, ?_, ?_, ?_, ?_⟩
  · intro hs hc hlen
    simp [AddEmail, hs, hc, hquit, hcap, hlen]
  · intro hs hc hlen
    simp [AddEmail, hs, hc, hquit, hcap, hlen]
  · exact (AddEmail_outcome pick ewp email hquit).2
  · intro retry numWorkers maxRetries
    simp [NewEmailWorkerPool, Nat.mul_comm]
  · obtain ⟨h1, h2, h3⟩ := Start_quitClosed ewp
    rw [h1, h2, h3]
    exact ⟨hquit, hcap⟩
  · obtain ⟨h1, h2, h3⟩ := Stop_quitClosed work ewp
    rw [h1, h2, h3]
    exact ⟨hquit, hcap⟩
  · obtain ⟨h1, h2, h3⟩ := AddEmail_quitClosed pick ewp email
    rw [h1, h2, h3]
    exact ⟨hquit, hcap⟩

/-- C8 (amended) at a started pool with one worker and two queued jobs: the queue is full. -/
theorem AddEmail_classification_witness :
    AddEmail true fullPool helloMail = (.ret (some (.errorf "job queue is full")), fullPool) :=
  (AddEmail_classification reportSent true fullPool helloMail rfl rfl).2.2.1 rfl rfl rfl


/-! ### The envelope: defineRecipients -/

theorem rcptLoop_spec {σ : Type} (srv : Server σ) (rs : List GoString) (n : Net σ) :
    ((rcptLoop srv rs n).1 = none ∧
        (rcptLoop srv rs n).2.calls = n.calls ++ rs.map NetCall.rcpt) ∨
      ∃ pre r post cause, rs = pre ++ r :: post ∧
        rcptsAccepted srv pre n.state = true ∧
        (srv.Rcpt r (afterRcpts srv pre n.state)).1 = some cause ∧
        (rcptLoop srv rs n).1 =
          some (wrapErr ("error setting recipient " ++ r ++ ": ") cause) ∧
        (rcptLoop srv rs n).2.calls = n.calls ++ (pre ++ [r]).map NetCall.rcpt := by
  induction rs generalizing n with
  | nil => exact Or.inl (by simp [rcptLoop])
  | cons r rest ih =>
    cases h : (srv.Rcpt r n.state).1 with
    | some err =>
      exact Or.inr ⟨[], r, rest, err, rfl, rfl, h, by simp [rcptLoop, netCall, h],
        by simp [rcptLoop, netCall, h]⟩
    | none =>
      have hstep : rcptLoop srv (r :: rest) n =
          rcptLoop srv rest ⟨(srv.Rcpt r n.state).2, n.calls ++ [NetCall.rcpt r]⟩ := by
        simp [rcptLoop, netCall, h]
      rw [hstep]
      rcases ih ⟨(srv.Rcpt r n.state).2, n.calls ++ [NetCall.rcpt r]⟩ with
        ⟨h1, h2⟩ | ⟨pre, r1, post, cause, hrs, hacc, hrej, h1, h2⟩
      · exact Or.inl ⟨h1, by simp [h2]⟩
      · exact Or.inr ⟨r :: pre, r1, post, cause, by simp [hrs],
          by simp [rcptsAccepted, h, hacc], by simpa [afterRcpts] using hrej, h1,
          by simp [h2]⟩

/-- A rejection stops the loop: when the recipients of `pre` are accepted one after the
other and the server then rejects `r`, the loop returns the error naming `r` that wraps
the server's answer, has issued RCPT for `pre` and `r` and for nothing of `post`, and
leaves the state of the rejected call. -/
theorem rcptLoop_reject {σ : Type} (srv : Server σ) (pre : List GoString) (r : GoString)
    (post : List GoString) (cause : GoError) (n : Net σ)
    (hacc : rcptsAccepted srv pre n.state = true)
    (hrej : (srv.Rcpt r (afterRcpts srv pre n.state)).1 = some cause) :
    rcptLoop srv (pre ++ r :: post) n =
      (some (wrapErr ("error setting recipient " ++ r ++ ": ") cause),
        ⟨(srv.Rcpt r (afterRcpts srv pre n.state)).2,
          n.calls ++ (pre ++ [r]).map NetCall.rcpt⟩) := by
  induction pre generalizing n with
  | nil =>
    simp only [afterRcpts] at hrej
    simp [rcptLoop, netCall, hrej, afterRcpts]
  | cons p rest ih =>
    simp only [rcptsAccepted, Bool.and_eq_true, Option.isNone_iff_eq_none] at hacc
    have hstep : rcptLoop srv (p :: rest ++ r :: post) n =
        rcptLoop srv (rest ++ r :: post)
          ⟨(srv.Rcpt p n.state).2, n.calls ++ [NetCall.rcpt p]⟩ := by
      simp [rcptLoop, netCall, hacc.1]
    rw [hstep, ih ⟨(srv.Rcpt p n.state).2, n.calls ++ [NetCall.rcpt p]⟩ hacc.2
      (by simpa [afterRcpts] using hrej)]
    simp [afterRcpts]

theorem rcptLoop_accepting {σ : Type} (srv : Server σ)
    (hacc : ∀ r s, (srv.Rcpt r s).1 = none) (rs : List GoString) (n : Net σ) :
    (rcptLoop srv rs n).1 = none ∧
      (rcptLoop srv rs n).2.calls = n.calls ++ rs.map NetCall.rcpt := by
  induction rs generalizing n with
  | nil => simp [rcptLoop]
  | cons r rest ih =>
    have hstep : rcptLoop srv (r :: rest) n =
        rcptLoop srv rest ⟨(srv.Rcpt r n.state).2, n.calls ++ [NetCall.rcpt r]⟩ := by
      simp [rcptLoop, netCall, hacc r n.state]
    rw [hstep]
    obtain ⟨h1, h2⟩ := ih ⟨(srv.Rcpt r n.state).2, n.calls ++ [NetCall.rcpt r]⟩
    exact ⟨h1, by simp [h2]⟩

theorem allRecipients_eq (email : IndividualEmail) :
    allRecipients email =
      [email.To] ++ email.Cc.filter (fun cc => Contains cc "@") ++
        email.Bcc.filter (fun bcc => Contains bcc "@") := by
  have hf : (fun cc : GoString => decide (cc ≠ []) && Contains cc "@") =
      (fun cc : GoString => Contains cc "@") := by
    funext cc
    cases cc with
    | nil => decide
    | cons c cs => simp
  simp only [allRecipients, hf]

set_option maxRecDepth 100000 in
/-- C9, counterexample: a Cc entry that is not empty but has no "@" ("postmaster") gets
no RCPT, although every recipient is accepted. -/
theorem defineRecipients_skips_cc_without_at :
    ccWithoutAt.Cc = [("postmaster" : GoString)] ∧
      (defineRecipients acceptAll ccWithoutAt ⟨(), []⟩).1 = none ∧
      (defineRecipients acceptAll ccWithoutAt ⟨(), []⟩).2.calls =
        [NetCall.rcpt "d@e.f", NetCall.rcpt "g@h.i"] := by
  decide

/-- C9, amended: for every message and a server that accepts every recipient, the RCPT
addresses issued by `defineRecipients` are exactly the `To` address, then every Cc address
that contains "@" in order, then every Bcc address that contains "@" in order; if the
server rejects a recipient of that list (after accepting the ones before it), no later
recipient is issued and the error returned names that recipient and wraps the server's
answer; and an error is returned in no other way. -/
theorem defineRecipients_envelope {σ : Type} (srv : Server σ) (email : IndividualEmail)
    (n : Net σ) :
    ((∀ r s, (srv.Rcpt r s).1 = none) →
      (defineRecipients srv email n).1 = none ∧
      (defineRecipients srv email n).2.calls =
        n.calls ++ ([email.To] ++ email.Cc.filter (fun cc => Contains cc "@") ++
          email.Bcc.filter (fun bcc => Contains bcc "@")).map NetCall.rcpt) ∧
    (∀ pre r post cause,
      [email.To] ++ email.Cc.filter (fun cc => Contains cc "@") ++
        email.Bcc.filter (fun bcc => Contains bcc "@") = pre ++ r :: post →
      rcptsAccepted srv pre n.state = true →
      (srv.Rcpt r (afterRcpts srv pre n.state)).1 = some cause →
      (defineRecipients srv email n).1 =
          some (wrapErr ("error setting recipient " ++ r ++ ": ") cause) ∧
        (defineRecipients srv email n).1.map GoError.Error =
          some ("error setting recipient " ++ r ++ ": " ++ cause.Error) ∧
        (defineRecipients srv email n).2.calls = n.calls ++ (pre ++ [r]).map NetCall.rcpt ∧
        (defineRecipients srv email n).2.state =
          (srv.Rcpt r (afterRcpts srv pre n.state)).2) ∧
    (∀ err, (defineRecipients srv email n).1 = some err →
      ∃ pre r post cause,
        [email.To] ++ email.Cc.filter (fun cc => Contains cc "@") ++
          email.Bcc.filter (fun bcc => Contains bcc "@") = pre ++ r :: post ∧
        rcptsAccepted srv pre n.state = true ∧
        (srv.Rcpt r (afterRcpts srv pre n.state)).1 = some cause ∧
        (defineRecipients srv email n).2.calls = n.calls ++ (pre ++ [r]).map NetCall.rcpt ∧
        err = wrapErr ("error setting recipient " ++ r ++ ": ") cause ∧
        err.Error = "error setting recipient " ++ r ++ ": " ++ cause.Error) := by
  unfold defineRecipients
  rw [allRecipients_eq]
  refine ⟨fun hacc => rcptLoop_accepting srv hacc _ n, ?_, ?_⟩
  · intro pre r post cause hsplit hacc hrej
    rw [hsplit, rcptLoop_reject srv pre r post cause n hacc hrej]
    exact ⟨rfl, by simp [wrapErr, GoError.Error], rfl, rfl⟩
  · intro err herr
    rcases rcptLoop_spec srv ([email.To] ++ email.Cc.filter (fun cc => Contains cc "@") ++
        email.Bcc.filter (fun bcc => Contains bcc "@")) n with
      ⟨h1, _⟩ | ⟨pre, r, post, cause, hrs, hacc, hrej, h1, h2⟩
    · rw [h1] at herr
      exact absurd herr (by simp)
    · rw [h1] at herr
      have herr' : err = wrapErr ("error setting recipient " ++ r ++ ": ") cause :=
        (Option.some.inj herr).symm
      exact ⟨pre, r, post, cause, hrs, hacc, hrej, h2, herr',
        by rw [herr']; simp [wrapErr, GoError.Error]⟩

set_option maxRecDepth 100000 in
/-- C9 (amended) at a message with a Cc entry without "@" and the Bcc entry "g@h.i": on a
server that accepts everything both RCPTs are issued; on a server that accepts "d@e.f" and
rejects "g@h.i" the error names "g@h.i" and wraps the server's "550 no such user". -/
theorem defineRecipients_envelope_witness :
    ((defineRecipients acceptAll ccWithoutAt ⟨(), []⟩).1 = none ∧
      (defineRecipients acceptAll ccWithoutAt ⟨(), []⟩).2.calls =
        [] ++ ([ccWithoutAt.To] ++ ccWithoutAt.Cc.filter (fun cc => Contains cc "@") ++
          ccWithoutAt.Bcc.filter (fun bcc => Contains bcc "@")).map NetCall.rcpt) ∧
    ((defineRecipients rejectsOne ccWithoutAt ⟨(), []⟩).1 =
        some (wrapErr ("error setting recipient " ++ ("g@h.i" : GoString) ++ ": ")
          (.errorf "550 no such user")) ∧
      (defineRecipients rejectsOne ccWithoutAt ⟨(), []⟩).1.map GoError.Error =
        some ("error setting recipient " ++ ("g@h.i" : GoString) ++ ": " ++
          (GoError.errorf "550 no such user").Error) ∧
      (defineRecipients rejectsOne ccWithoutAt ⟨(), []⟩).2.calls =
        [] ++ ([("d@e.f" : GoString)] ++ [("g@h.i" : GoString)]).map NetCall.rcpt ∧
      (defineRecipients rejectsOne ccWithoutAt ⟨(), []⟩).2.state =
        (rejectsOne.Rcpt "g@h.i" (afterRcpts rejectsOne [("d@e.f" : GoString)] ())).2) :=
  ⟨(defineRecipients_envelope acceptAll ccWithoutAt ⟨(), []⟩).1 (fun _ _ => rfl),
    (defineRecipients_envelope rejectsOne ccWithoutAt ⟨(), []⟩).2.1
      ["d@e.f"] "g@h.i" [] (.errorf "550 no such user") (by decide) (by decide) (by decide)⟩

set_option maxRecDepth 100000 in
/-- A rejected recipient, run end to end: the server refuses "g@h.i", the error names it. -/
theorem defineRecipients_rejected_recipient :
    (defineRecipients rejectsOne ccWithoutAt ⟨(), []⟩).1 =
        some (wrapErr "error setting recipient g@h.i: " (.errorf "550 no such user")) ∧
      (defineRecipients rejectsOne ccWithoutAt ⟨(), []⟩).2.calls =
        [NetCall.rcpt "d@e.f", NetCall.rcpt "g@h.i"] := by
  decide

/-! ### The session's command lines -/

theorem sprintfNoOperands_plain (s : GoString) (h : '%' ∉ s) :
    sprintfNoOperands s = some s := by
  induction s with
  | nil => rfl
  | cons c cs ih =>
    have hc : c ≠ '%' := fun hc => h (by simp [hc])
    have hcs : '%' ∉ cs := fun hcs => h (List.mem_cons_of_mem _ hcs)
    rw [sprintfNoOperands.eq_def]
    simp [hc, ih hcs]

/-- For every sender without a "%", the line `from` writes is the template with its
unfilled verb, followed by the address. -/
theorem sessionFrom_line {σ : Type} (conn : TextConn σ) (header : Header_t) (w : Wire σ)
    (h : '%' ∉ header.From) :
    (sessionFrom conn header w).map (fun r => r.2.written) =
      some (w.written ++ ["MAIL FROM:<%!s(MISSING)>" ++ header.From ++ "\r\n"]) := by
  have hfmt : sprintfNoOperands (writeConnWrapper ["MAIL FROM:<%s>", header.From]) =
      some ("MAIL FROM:<%!s(MISSING)>" ++ header.From) := by
    have hgt : sprintfNoOperands ('>' :: header.From) = some ('>' :: header.From) :=
      sprintfNoOperands_plain _ (by simp [h])
    simp [writeConnWrapper, Join, sprintfNoOperands, directiveModifier, hgt]
  simp only [sessionFrom, writeFromConn, PrintfLine, hfmt, Option.map_some']
  cases hw : (conn.WriteLine (("MAIL FROM:<%!s(MISSING)>" : GoString) ++ header.From ++ "\r\n")
    w.state).1 <;> simp [readFromConn, hw]

set_option maxRecDepth 100000 in
/-- C10 (the code at the failing input): for the sender "a@b.c" and the recipient "d@e.f"
the lines written are `MAIL FROM:<%!s(MISSING)>a@b.c` and `RCPT TO:<%!s(MISSING)>d@e.f`:
`writeConnWrapper` joins the template and the address, and the result is used as a format
without operands. -/
theorem session_command_lines :
    writeConnWrapper ["MAIL FROM:<%s>", sampleHeader.From] =
        ("MAIL FROM:<%s>a@b.c" : GoString) ∧
      (sessionFrom okConn sampleHeader ⟨(), []⟩).map (fun r => (r.1, r.2.written)) =
        some (none, [("MAIL FROM:<%!s(MISSING)>a@b.c\r\n" : GoString)]) ∧
      (sessionTo okConn sampleHeader ⟨(), []⟩).map (fun r => (r.1, r.2.written)) =
        some (none, [("RCPT TO:<%!s(MISSING)>d@e.f\r\n" : GoString)]) := by
  decide


/-! ### Further facts about the retry policy -/

theorem ToLower_ascii (tbl tbl1 : Char → Char) (s : GoString)
    (h : ∀ c ∈ s, c.toNat ≤ 127) : ToLower tbl s = ToLower tbl1 s := by
  apply List.map_congr_left
  intro c hc
  simp [toLowerRune, h c hc]

/-- On a message of ASCII runes the case table is never consulted. -/
theorem shouldRetry_ascii (tbl : Char → Char) (err : GoError)
    (h : ∀ c ∈ err.Error, c.toNat ≤ 127) :
    shouldRetry tbl err = shouldRetry asciiTable err := by
  simp only [shouldRetry, ToLower_ascii tbl asciiTable err.Error h]

set_option maxRecDepth 100000 in
/-- The part of the validation contract that holds: when a required field is empty, the
error `sendEmail` returns is classified as not retryable (the text is fixed and has no
retryable phrase). -/
theorem shouldRetry_false_of_missing_field {σ : Type} (tbl : Char → Char) (srv : Server σ)
    (email : IndividualEmail) (n : Net σ)
    (h : email.From = [] ∨ email.To = [] ∨ email.Subject = [] ∨ email.Body = []) :
    ∃ err, (sendEmail srv (some email) n).1 = some err ∧ shouldRetry tbl err = false := by
  by_cases h1 : email.From = []
  · have hv : validateEmail (some email) = some (.errorf "sender (From) is required") := by
      simp [validateEmail, h1]
    refine ⟨_, by rw [sendEmail_of_invalid srv _ n _ hv], ?_⟩
    rw [shouldRetry_ascii _ _ (by decide)]
    decide
  by_cases h2 : email.To = []
  · have hv : validateEmail (some email) = some (.errorf "recipient (To) is required") := by
      simp [validateEmail, h1, h2]
    refine ⟨_, by rw [sendEmail_of_invalid srv _ n _ hv], ?_⟩
    rw [shouldRetry_ascii _ _ (by decide)]
    decide
  by_cases h3 : email.Subject = []
  · have hv : validateEmail (some email) = some (.errorf "subject is required") := by
      simp [validateEmail, h1, h2, h3]
    refine ⟨_, by rw [sendEmail_of_invalid srv _ n _ hv], ?_⟩
    rw [shouldRetry_ascii _ _ (by decide)]
    decide
  by_cases h4 : email.Body = []
  · have hv : validateEmail (some email) = some (.errorf "body is required") := by
      simp [validateEmail, h1, h2, h3, h4]
    refine ⟨_, by rw [sendEmail_of_invalid srv _ n _ hv], ?_⟩
    rw [shouldRetry_ascii _ _ (by decide)]
    decide
  · exact absurd h (by simp [h1, h2, h3, h4])

/-- Whenever `SendWithRetry` returns an error, the count it returns is `maxRetries`,
whatever the number of attempts made. -/
theorem retryLoop_error_attempts {σ : Type} (tbl : Char → Char) (ers : EmailRetrySystem)
    (send : σ → Option GoError × σ) :
    ∀ (fuel : Nat) (attempt : Int) (backoff : Duration) (lastErr : Option GoError)
      (sends : Nat) (sleeps : List Duration) (s : σ),
      (retryLoop tbl ers send fuel attempt backoff lastErr sends sleeps s).err ≠ none →
      (retryLoop tbl ers send fuel attempt backoff lastErr sends sleeps s).attempts =
        ers.maxRetries := by
  intro fuel
  induction fuel with
  | zero => intro attempt backoff lastErr sends sleeps s _; simp [retryLoop]
  | succ f ih =>
    intro attempt backoff lastErr sends sleeps s
    by_cases h1 : attempt ≤ ers.maxRetries
    · rcases hs : send s with ⟨e, s1⟩
      cases e with
      | none => simp [retryLoop, h1, hs]
      | some err =>
        by_cases h2 : attempt < ers.maxRetries
        · cases h3 : shouldRetry tbl err with
          | false => simp [retryLoop, h1, hs, h2, h3]
          | true =>
            simp only [retryLoop, h1, hs, h2, h3, if_true]
            exact ih _ _ _ _ _ _
        · simp only [retryLoop, h1, hs, h2, if_true, if_false]
          exact ih _ _ _ _ _ _
    · simp [retryLoop, h1]


/-! ### The line buffer -/

theorem roundFloat64_ge (n : Int) (hn : 0 < n) (h : (2 : Int) ^ 53 ≤ n) :
    (2 : Int) ^ 53 ≤ roundFloat64 n := by
  have ha : 2 ^ 53 ≤ n.natAbs := by
    have : ((2 ^ 53 : Nat) : Int) ≤ (n.natAbs : Int) := by
      rw [Int.natAbs_of_nonneg (le_of_lt hn)]
      exact_mod_cast h
    exact_mod_cast this
  have hne : n.natAbs ≠ 0 := by omega
  have hlog : 53 ≤ n.natAbs.log2 := (Nat.le_log2 hne).2 ha
  have hpow : 2 ^ n.natAbs.log2 ≤ n.natAbs := Nat.log2_self_le hne
  simp only [roundFloat64]
  rw [if_neg (by omega)]
  have hsign : n.sign = 1 := Int.sign_eq_one_of_pos hn
  rw [hsign, one_mul]
  set e := n.natAbs.log2 - 52 with he
  have hsplit : 2 ^ n.natAbs.log2 = 2 ^ 52 * 2 ^ e := by
    rw [← pow_add]
    congr 1
    omega
  have hq : 2 ^ 52 ≤ n.natAbs / 2 ^ e := by
    rw [Nat.le_div_iff_mul_le (by positivity)]
    omega
  have he1 : 2 ^ 1 ≤ 2 ^ e := Nat.pow_le_pow_right (by norm_num) (by omega)
  have hmul : ∀ q1 : Nat, 2 ^ 52 ≤ q1 → 2 ^ 53 ≤ q1 * 2 ^ e := by
    intro q1 hq1
    calc 2 ^ 53 = 2 ^ 52 * 2 ^ 1 := by norm_num
      _ ≤ q1 * 2 ^ e := Nat.mul_le_mul hq1 he1
  have hcast : ∀ q1 : Nat, 2 ^ 52 ≤ q1 → (2 : Int) ^ 53 ≤ ((q1 * 2 ^ e : Nat) : Int) := by
    intro q1 hq1
    exact_mod_cast hmul q1 hq1
  split_ifs
  · exact hcast _ (by omega)
  · exact hcast _ hq

theorem wrapInt64_of_range (x : Int) (h0 : 0 ≤ x) (h1 : x < 2 ^ 53) : wrapInt64 x = x := by
  unfold wrapInt64
  norm_num at h1 ⊢
  omega

theorem int64OfFloat_of_range (f : Int) (h0 : 0 ≤ f) (h1 : f < 2 ^ 53) : int64OfFloat f = f := by
  unfold int64OfFloat durationOfFloat
  norm_num at h1 ⊢
  intro h
  omega

/-- When the `make` of a resize returns, the new capacity is the exact product. -/
theorem newCap_exact (maxCap : Nat) (hmax : maxCap < 2 ^ 53) (cap factor : Int)
    (hcap0 : 0 < cap) (hcap : cap < 2 ^ 53) (hf : 2 ≤ factor)
    (hmake : makeSliceOk maxCap
      (int64OfFloat (roundFloat64 (roundFloat64 cap * factor))) = true) :
    int64OfFloat (roundFloat64 (roundFloat64 cap * factor)) = cap * factor := by
  have hmaxI : (maxCap : Int) < 2 ^ 53 := by exact_mod_cast hmax
  have hr : roundFloat64 cap = cap := roundFloat64_of_lt cap (by norm_num at hcap ⊢; omega)
  rw [hr] at hmake ⊢
  have hP : 0 < cap * factor := by positivity
  by_cases hlt : cap * factor < 2 ^ 53
  · have hrP : roundFloat64 (cap * factor) = cap * factor :=
      roundFloat64_of_lt _ (by norm_num at hlt ⊢; omega)
    rw [hrP]
    exact int64OfFloat_of_range _ (le_of_lt hP) hlt
  · exfalso
    have hge := roundFloat64_ge (cap * factor) hP (not_lt.1 hlt)
    simp only [makeSliceOk, decide_eq_true_eq, int64OfFloat, durationOfFloat] at hmake
    split_ifs at hmake with hin
    · omega
    · norm_num at hmake

theorem writeOne_spec (maxCap : Nat) (hmax : maxCap < 2 ^ 53) (b b1 : Buffer_t)
    (str : GoString) (hlen : 0 ≤ b.Config.Len) (hlt : b.Config.Len < b.Config.Cap)
    (hcap : b.Config.Cap ≤ maxCap) (hf : 2 ≤ b.Config.ResizeFactor)
    (h : b.writeOne maxCap str = some b1) :
    b1.Buffer = b.Buffer ++ [str] ∧ b1.Config.Len = b.Config.Len + 1 ∧
      b1.Config.Len < b1.Config.Cap ∧ b1.Config.Cap ≤ maxCap ∧
      b1.Config.ResizeFactor = b.Config.ResizeFactor := by
  have hmaxI : (maxCap : Int) < 2 ^ 53 := by exact_mod_cast hmax
  have hw : wrapInt64 (b.Config.Len + 1) = b.Config.Len + 1 :=
    wrapInt64_of_range _ (by omega) (by omega)
  simp only [Buffer_t.writeOne, hw] at h
  split_ifs at h with hge hmake
  · have hexact := newCap_exact maxCap hmax b.Config.Cap b.Config.ResizeFactor (by omega)
      (by omega) hf hmake
    have hbound : int64OfFloat (roundFloat64 (roundFloat64 b.Config.Cap *
        b.Config.ResizeFactor)) ≤ maxCap := by
      simp only [makeSliceOk, decide_eq_true_eq] at hmake
      exact hmake.2
    have hgrow : b.Config.Cap * 2 ≤ b.Config.Cap * b.Config.ResizeFactor :=
      mul_le_mul_of_nonneg_left hf (by omega)
    have hb1 := Option.some.inj h
    subst hb1
    refine ⟨rfl, rfl, ?_, hbound, rfl⟩
    show b.Config.Len + 1 <
      int64OfFloat (roundFloat64 (roundFloat64 b.Config.Cap * b.Config.ResizeFactor))
    rw [hexact]
    omega
  · have hb1 := Option.some.inj h
    subst hb1
    exact ⟨rfl, rfl, by simpa using hge, hcap, rfl⟩

theorem Write_spec (maxCap : Nat) (hmax : maxCap < 2 ^ 53) (fragments : List GoString) :
    ∀ (b b1 : Buffer_t), 0 ≤ b.Config.Len → b.Config.Len < b.Config.Cap →
      b.Config.Cap ≤ maxCap → 2 ≤ b.Config.ResizeFactor →
      b.Write maxCap fragments = some b1 →
      b1.Buffer = b.Buffer ++ fragments ∧ b1.Config.Len = b.Config.Len + fragments.length ∧
        b1.Config.Len < b1.Config.Cap := by
  induction fragments with
  | nil =>
    intro b b1 _ hlt _ _ h
    have hb1 := Option.some.inj h
    subst hb1
    exact ⟨by simp, by simp, hlt⟩
  | cons str rest ih =>
    intro b b1 hlen hlt hcap hf h
    simp only [Buffer_t.Write] at h
    cases hone : b.writeOne maxCap str with
    | none => simp [hone] at h
    | some b2 =>
      simp only [hone] at h
      obtain ⟨h1, h2, h3, h4, h5⟩ := writeOne_spec maxCap hmax b b2 str hlen hlt hcap hf hone
      obtain ⟨g1, g2, g3⟩ := ih b2 b1 (by omega) h3 h4 (by omega) h
      refine ⟨by rw [g1, h1]; simp, ?_, g3⟩
      rw [g2, h2, List.length_cons]
      push_cast
      ring

theorem writeOne_total (maxCap : Nat) (hmax : maxCap < 2 ^ 53) (b : Buffer_t)
    (str : GoString) (hlen : 0 ≤ b.Config.Len) (hlt : b.Config.Len < b.Config.Cap)
    (hcap : b.Config.Cap ≤ maxCap) (hf : 2 ≤ b.Config.ResizeFactor)
    (hroom : (b.Config.Len + 1) * b.Config.ResizeFactor ≤ maxCap) :
    ∃ b1, b.writeOne maxCap str = some b1 := by
  have hmaxI : (maxCap : Int) < 2 ^ 53 := by exact_mod_cast hmax
  have hw : wrapInt64 (b.Config.Len + 1) = b.Config.Len + 1 :=
    wrapInt64_of_range _ (by omega) (by omega)
  simp only [Buffer_t.writeOne, hw]
  split_ifs with hge hmake
  · exact ⟨_, rfl⟩
  · exfalso
    apply hmake
    have heq : b.Config.Cap = b.Config.Len + 1 := by omega
    have hP : 0 ≤ b.Config.Cap * b.Config.ResizeFactor :=
      mul_nonneg (by omega) (by omega)
    have hPle : b.Config.Cap * b.Config.ResizeFactor ≤ maxCap := by rw [heq]; exact hroom
    have hr : roundFloat64 b.Config.Cap = b.Config.Cap :=
      roundFloat64_of_lt _ (by norm_num at hmaxI ⊢; omega)
    have hrP : roundFloat64 (b.Config.Cap * b.Config.ResizeFactor) =
        b.Config.Cap * b.Config.ResizeFactor :=
      roundFloat64_of_lt _ (by norm_num at hmaxI ⊢; omega)
    rw [hr, hrP, int64OfFloat_of_range _ hP (by omega)]
    simp only [makeSliceOk, decide_eq_true_eq]
    exact ⟨hP, hPle⟩
  · exact ⟨_, rfl⟩

theorem Write_total (maxCap : Nat) (hmax : maxCap < 2 ^ 53) (fragments : List GoString) :
    ∀ (b : Buffer_t), 0 ≤ b.Config.Len → b.Config.Len < b.Config.Cap →
      b.Config.Cap ≤ maxCap → 2 ≤ b.Config.ResizeFactor →
      (b.Config.Len + fragments.length) * b.Config.ResizeFactor ≤ maxCap →
      ∃ b1, b.Write maxCap fragments = some b1 := by
  induction fragments with
  | nil => intro b _ _ _ _ _; exact ⟨b, rfl⟩
  | cons str rest ih =>
    intro b hlen hlt hcap hf hroom
    have hle : (b.Config.Len + 1) * b.Config.ResizeFactor ≤
        (b.Config.Len + ((str :: rest).length : Int)) * b.Config.ResizeFactor := by
      apply mul_le_mul_of_nonneg_right _ (by omega)
      simp only [List.length_cons]
      push_cast
      omega
    obtain ⟨b2, hone⟩ := writeOne_total maxCap hmax b str hlen hlt hcap hf (le_trans hle hroom)
    obtain ⟨h1, h2, h3, h4, h5⟩ := writeOne_spec maxCap hmax b b2 str hlen hlt hcap hf hone
    obtain ⟨b1, hb1⟩ := ih b2 (by omega) h3 h4 (by omega) (by
      rw [h2, h5]
      simp only [List.length_cons] at hroom
      push_cast at hroom
      have : b.Config.Len + 1 + (rest.length : Int) = b.Config.Len + ((rest.length : Int) + 1) := by
        ring
      rw [this]
      exact hroom)
    exact ⟨b1, by simp only [Buffer_t.Write, hone, hb1]⟩

theorem Get_eq_flatten (b : Buffer_t) : b.Get = b.Buffer.flatten := by
  have h : ∀ xs : List GoString, ([] : GoString).intercalate xs = xs.flatten := by
    intro xs
    induction xs with
    | nil => rfl
    | cons x rest ih =>
      cases rest with
      | nil => simp [List.intercalate, List.intersperse]
      | cons y ys =>
        simp only [List.intercalate, List.intersperse, List.flatten] at ih ⊢
        rw [ih]
        simp
  exact h b.Buffer


/-- C11: for every buffer created by `NewBuffer` with capacity at least 1 and resize factor
at least 2 and every list of fragments, `Write` of those fragments returns whenever the
slices it makes are within the runtime's limit, and after it `Config.Len` is the number of
fragments, `Config.Cap` is at least `Config.Len`, and `Get` is the concatenation of the
fragments in order; after `Reset`, `Get` is empty, `Config.Len` is 0 and `Config.Cap` is
unchanged. -/
theorem Buffer_write_get_reset (maxCap : Nat) (hmax : maxCap < 2 ^ 53)
    (capacity resizeFactor : Int) (hc : 1 ≤ capacity) (hf : 2 ≤ resizeFactor)
    (fragments : List GoString) :
    (capacity ≤ maxCap → fragments.length * resizeFactor ≤ maxCap →
      ∃ b0 b, NewBuffer maxCap capacity resizeFactor = some b0 ∧
        b0.Write maxCap fragments = some b) ∧
    (∀ b0 b, NewBuffer maxCap capacity resizeFactor = some b0 →
      b0.Write maxCap fragments = some b →
      b.Config.Len = fragments.length ∧ b.Config.Len ≤ b.Config.Cap ∧
        b.Get = fragments.flatten ∧
        b.Reset.Get = [] ∧ b.Reset.Config.Len = 0 ∧ b.Reset.Config.Cap = b.Config.Cap) := by
  constructor
  · intro hcap hroom
    have hnew : NewBuffer maxCap capacity resizeFactor =
        some { Buffer := [], Config := { Cap := capacity, Len := 0, ResizeFactor := resizeFactor } } := by
      simp only [NewBuffer, makeSliceOk]
      rw [if_pos]
      simp only [decide_eq_true_eq]
      exact ⟨by omega, hcap⟩
    obtain ⟨b, hb⟩ := Write_total maxCap hmax fragments
      { Buffer := [], Config := { Cap := capacity, Len := 0, ResizeFactor := resizeFactor } }
      (le_refl _) (by show (0 : Int) < capacity; omega) hcap hf
      (by show ((0 : Int) + fragments.length) * resizeFactor ≤ maxCap; simpa using hroom)
    exact ⟨_, b, hnew, hb⟩
  · intro b0 b hnew hwrite
    simp only [NewBuffer] at hnew
    split_ifs at hnew with hmake
    have hb0 := Option.some.inj hnew
    subst hb0
    simp only [makeSliceOk, decide_eq_true_eq] at hmake
    obtain ⟨h1, h2, h3⟩ := Write_spec maxCap hmax fragments _ b (le_refl _)
      (by show (0 : Int) < capacity; omega) hmake.2 hf hwrite
    refine ⟨by simpa using h2, le_of_lt h3, ?_, ?_, rfl, rfl⟩
    · rw [Get_eq_flatten, h1]
      simp
    · rw [Get_eq_flatten]
      simp [Buffer_t.Reset]

/-- C11 at capacity 2, factor 2 and five fragments: the capacity ends at 8. -/
theorem Buffer_write_get_reset_witness :
    fiveWritten.Config.Len = (fiveFragments.length : Int) ∧
      fiveWritten.Config.Len ≤ fiveWritten.Config.Cap ∧
      fiveWritten.Get = fiveFragments.flatten ∧
      fiveWritten.Reset.Get = [] ∧ fiveWritten.Reset.Config.Len = 0 ∧
      fiveWritten.Reset.Config.Cap = fiveWritten.Config.Cap :=
  (Buffer_write_get_reset maxCap64 (by decide) 2 2 (by decide) (by decide) fiveFragments).2
    emptyBuffer fiveWritten (by decide) (by decide)

/-- The five appends of the specification's round trip, run: capacity 8, length 5. -/
theorem Buffer_five_appends :
    (NewBuffer maxCap64 2 2).bind (fun b => b.Write maxCap64 fiveFragments) = some fiveWritten ∧
      (5 : Int) ≤ fiveWritten.Config.Cap := by
  decide

/-- Writing in several calls is writing the fragments in one call. -/
theorem Write_append (maxCap : Nat) (xs ys : List GoString) (b : Buffer_t) :
    b.Write maxCap (xs ++ ys) = (b.Write maxCap xs).bind (fun b1 => b1.Write maxCap ys) := by
  induction xs generalizing b with
  | nil => rfl
  | cons x rest ih =>
    simp only [List.cons_append, Buffer_t.Write]
    cases b.writeOne maxCap x with
    | none => rfl
    | some b1 => exact ih b1


/-! ### Restarting the pool -/

theorem AddEmail_panics_of_closed (pick : Bool) (ewp : EmailWorkerPool)
    (email : IndividualEmail) (hs : ewp.started = true) (hc : ewp.JobQueue.closed = true)
    (hq : ewp.quitClosed = false) :
    AddEmail pick ewp email = (.panic "send on closed channel", ewp) := by
  simp [AddEmail, hs, hc, hq]

theorem Stop_panics_of_closed (work : IndividualEmail → EmailResult) (ewp : EmailWorkerPool)
    (hs : ewp.started = true) (hc : ewp.JobQueue.closed = true) :
    Stop work ewp = (.panic "close of closed channel", ewp) := by
  simp [Stop, hs, hc]

theorem Stop_ret_closed (work : IndividualEmail → EmailResult) (ewp : EmailWorkerPool)
    (hs : ewp.started = true) (h : (Stop work ewp).1 = .ret ()) :
    (Stop work ewp).2.JobQueue.closed = true := by
  cases hc : ewp.JobQueue.closed <;> cases hr : ewp.ResultQueue.closed <;>
    by_cases hb : ewp.JobQueue.buf = [] <;>
    simp only [Stop, hs, hc, hr, hb] at h ⊢ <;>
    (try split_ifs at h ⊢) <;> simp_all

theorem Start_fields (ewp : EmailWorkerPool) :
    (Start ewp).started = true ∧ (Start ewp).quitClosed = ewp.quitClosed ∧
      (Start ewp).JobQueue.closed = ewp.JobQueue.closed := by
  cases hs : ewp.started <;> simp [Start, hs]

/-- Every pool that was started and whose `Stop` has returned panics after the next
`Start`: `AddEmail` sends on the closed `JobQueue`, `Stop` closes it a second time. -/
theorem restart_panics (work : IndividualEmail → EmailResult) (pick : Bool)
    (ewp : EmailWorkerPool) (email : IndividualEmail) (hs : ewp.started = true)
    (hq : ewp.quitClosed = false) (h : (Stop work ewp).1 = .ret ()) :
    (AddEmail pick (Start (Stop work ewp).2) email).1 = .panic "send on closed channel" ∧
      (Stop work (Start (Stop work ewp).2)).1 = .panic "close of closed channel" := by
  have h2 := Stop_ret_closed work ewp hs h
  have h3 : (Stop work ewp).2.quitClosed = false := by rw [(Stop_quitClosed work ewp).1, hq]
  obtain ⟨s1, s2, s3⟩ := Start_fields (Stop work ewp).2
  constructor
  · rw [AddEmail_panics_of_closed pick _ email s1 (by rw [s3, h2]) (by rw [s2, h3])]
  · rw [Stop_panics_of_closed work _ s1 (by rw [s3, h2])]

theorem workersRun_fields (work : IndividualEmail → EmailResult) (k : Nat)
    (ewp : EmailWorkerPool) (results : List EmailResult) :
    (workersRun work k ewp results).2.1.started = ewp.started ∧
      (workersRun work k ewp results).2.1.quitClosed = ewp.quitClosed ∧
      (workersRun work k ewp results).2.1.JobQueue.closed = ewp.JobQueue.closed := by
  unfold workersRun
  split_ifs <;> simp

theorem AddEmail_fields (pick : Bool) (ewp : EmailWorkerPool) (email : IndividualEmail) :
    (AddEmail pick ewp email).2.started = ewp.started ∧
      (AddEmail pick ewp email).2.quitClosed = ewp.quitClosed ∧
      (AddEmail pick ewp email).2.JobQueue.closed = ewp.JobQueue.closed := by
  cases hs : ewp.started <;> cases hc : ewp.JobQueue.closed <;>
    cases hq : ewp.quitClosed <;> cases pick <;>
    by_cases hl : ewp.JobQueue.buf.length < ewp.JobQueue.cap <;>
    simp [AddEmail, hs, hc, hq, hl]

theorem submitLoop_fields (work : IndividualEmail → EmailResult) (pick : Bool)
    (emails : List IndividualEmail) :
    ∀ (sched : List Nat) (ewp : EmailWorkerPool) (results : List EmailResult),
      (submitLoop work pick sched emails ewp results).2.1.started = ewp.started ∧
      (submitLoop work pick sched emails ewp results).2.1.quitClosed = ewp.quitClosed ∧
      (submitLoop work pick sched emails ewp results).2.1.JobQueue.closed =
        ewp.JobQueue.closed := by
  induction emails with
  | nil => intro sched ewp results; simp [submitLoop]
  | cons email rest ih =>
    intro sched ewp results
    obtain ⟨a1, a2, a3⟩ := AddEmail_fields pick ewp email
    rcases hadd : AddEmail pick ewp email with ⟨out, ewp1⟩
    rw [hadd] at a1 a2 a3
    simp only at a1 a2 a3
    cases out with
    | panic msg => simp only [submitLoop, hadd]; exact ⟨a1, a2, a3⟩
    | blocked => simp only [submitLoop, hadd]; exact ⟨a1, a2, a3⟩
    | ret v =>
      obtain ⟨w1, w2, w3⟩ := workersRun_fields work (sched.headD 0) ewp1 results
      rcases hrun : workersRun work (sched.headD 0) ewp1 results with ⟨out2, ewp2, results2⟩
      rw [hrun] at w1 w2 w3
      simp only at w1 w2 w3
      cases out2 with
      | ret u =>
        simp only [submitLoop, hadd, hrun]
        obtain ⟨i1, i2, i3⟩ := ih sched.tail ewp2 results2
        exact ⟨by rw [i1, w1, a1], by rw [i2, w2, a2], by rw [i3, w3, a3]⟩
      | panic msg =>
        simp only [submitLoop, hadd, hrun]
        exact ⟨by rw [w1, a1], by rw [w2, a2], by rw [w3, a3]⟩
      | blocked =>
        simp only [submitLoop, hadd, hrun]
        exact ⟨by rw [w1, a1], by rw [w2, a2], by rw [w3, a3]⟩

theorem stopCollecting_ret (work : IndividualEmail → EmailResult) (ewp : EmailWorkerPool)
    (results : List EmailResult) (hs : ewp.started = true)
    (h : (stopCollecting work ewp results).1 = .ret ()) :
    (stopCollecting work ewp results).2.1.started = false ∧
      (stopCollecting work ewp results).2.1.JobQueue.closed = true ∧
      (stopCollecting work ewp results).2.1.quitClosed = ewp.quitClosed := by
  cases hc : ewp.JobQueue.closed <;> cases hr : ewp.ResultQueue.closed <;>
    by_cases hb : ewp.JobQueue.buf = [] <;>
    simp [stopCollecting, workersRun, hs, hc, hr, hb] at h ⊢

/-- Every second `ProcessEmails` call on the same pool panics: once a first call has
returned, the next one sends on the closed `JobQueue` (when there is a message to submit)
or closes it again (when there is none), whatever the workers' schedule. -/
theorem second_ProcessEmails_panics (work : IndividualEmail → EmailResult)
    (pick pick2 : Bool) (sched sched2 : List Nat) (ewp : EmailWorkerPool)
    (emails emails2 : List IndividualEmail) (results : List EmailResult)
    (hq : ewp.quitClosed = false)
    (h : (ProcessEmails work pick sched ewp emails).1 = .ret results) :
    (ProcessEmails work pick2 sched2 (ProcessEmails work pick sched ewp emails).2 emails2).1 =
      (if emails2 = [] then .panic "close of closed channel"
        else .panic "send on closed channel") := by
  -- the state the first call leaves
  have hfirst : (ProcessEmails work pick sched ewp emails).2.started = false ∧
      (ProcessEmails work pick sched ewp emails).2.JobQueue.closed = true ∧
      (ProcessEmails work pick sched ewp emails).2.quitClosed = false := by
    obtain ⟨f1, f2, _⟩ := submitLoop_fields work pick emails sched (Start ewp) []
    obtain ⟨t1, t2, _⟩ := Start_fields ewp
    unfold ProcessEmails at h ⊢
    rcases hsub : submitLoop work pick sched emails (Start ewp) [] with ⟨out, ewp1, results1⟩
    rw [hsub] at f1 f2 h
    simp only at f1 f2 h
    cases out with
    | panic msg => simp at h
    | blocked => simp at h
    | ret u =>
      have hs1 : ewp1.started = true := by rw [f1, t1]
      have hq1 : ewp1.quitClosed = false := by rw [f2, t2, hq]
      simp only at h ⊢
      rcases hstop : stopCollecting work ewp1 results1 with ⟨out2, ewp2, results2⟩
      rw [hstop] at h
      cases out2 with
      | panic msg => simp at h
      | blocked => simp at h
      | ret u2 =>
        have hret : (stopCollecting work ewp1 results1).1 = .ret () := by rw [hstop]
        obtain ⟨c1, c2, c3⟩ := stopCollecting_ret work ewp1 results1 hs1 hret
        rw [hstop] at c1 c2 c3
        simp only at c1 c2 c3 ⊢
        exact ⟨c1, c2, by rw [c3, hq1]⟩
  obtain ⟨g1, g2, g3⟩ := hfirst
  generalize (ProcessEmails work pick sched ewp emails).2 = p at g1 g2 g3
  obtain ⟨s1, s2, s3⟩ := Start_fields p
  have hs : (Start p).started = true := s1
  have hc : (Start p).JobQueue.closed = true := by rw [s3, g2]
  have hqq : (Start p).quitClosed = false := by rw [s2, g3]
  cases emails2 with
  | nil =>
    simp [ProcessEmails, submitLoop, stopCollecting, hs, hc]
  | cons email rest =>
    simp [ProcessEmails, submitLoop, AddEmail_panics_of_closed pick2 _ email hs hc hqq]

set_option maxRecDepth 100000 in
/-- C12 (the code at the failing inputs): on a pool with one worker, `Start`, `Stop`,
`Start` leaves `started` set and `JobQueue` closed, so the next `AddEmail` panics with
"send on closed channel" and the next `Stop` with "close of closed channel"; and after a
first `ProcessEmails` call has returned its result, a second call on the same pool panics
in the same two ways. -/
theorem restarted_pool_panics :
    (Stop reportSent (Start freshPool)).1 = .ret () ∧
    (AddEmail true (Start (Stop reportSent (Start freshPool)).2) helloMail).1 =
      .panic "send on closed channel" ∧
    (Stop reportSent (Start (Stop reportSent (Start freshPool)).2)).1 =
      .panic "close of closed channel" ∧
    (ProcessEmails reportSent true [] freshPool [helloMail]).1 =
      .ret [reportSent helloMail] ∧
    (ProcessEmails reportSent true []
      (ProcessEmails reportSent true [] freshPool [helloMail]).2 [helloMail]).1 =
      .panic "send on closed channel" ∧
    (ProcessEmails reportSent true []
      (ProcessEmails reportSent true [] freshPool [helloMail]).2 []).1 =
      .panic "close of closed channel" := by
  decide


end GopherMail
